import Mathlib

/-!
Verification development for the `vondutch_patcher` repository
(`process_inspector.py` and the `addon/` subsystem).

The Python source is shallowly embedded: Python numbers (`int` or `float`)
become the sum type `PyNum`; byte strings become `List Nat`; mutable mock
memory becomes explicit state passing; functions that can raise become
`Except String`.  Python floats are exact dyadic rationals, so float values
and the tolerance comparisons of the source are modelled by the exact
(unnormalized) rational type `Q` below, whose operations are plain
`Int`/`Nat` arithmetic.  IEEE-754 decoding of finite float bytes is exact;
encoding is defined for exactly representable rationals (every value
originating from a Python float is representable).  Non-finite floats
(inf/NaN) occur in no modelled scenario and decode to 0 by convention.
-/

instance {ε α : Type} [DecidableEq ε] [DecidableEq α] : DecidableEq (Except ε α) := fun x y =>
  match x, y with
  | .ok a, .ok b =>
    if h : a = b then .isTrue (by rw [h]) else .isFalse (fun he => by cases he; exact h rfl)
  | .error a, .error b =>
    if h : a = b then .isTrue (by rw [h]) else .isFalse (fun he => by cases he; exact h rfl)
  | .ok _, .error _ => .isFalse (fun h => by cases h)
  | .error _, .ok _ => .isFalse (fun h => by cases h)

/-- An exact rational `num / den`.  Every constructor in this development
keeps `den > 0`, so the cross-multiplication comparisons below agree with
rational comparison. -/
structure Q where
  num : Int
  den : Nat
  deriving DecidableEq, Repr

/-- Embed an integer. -/
def Q.ofInt (z : Int) : Q := ⟨z, 1⟩

/-- Rational subtraction. -/
def Q.sub (a b : Q) : Q := ⟨a.num * b.den - b.num * a.den, a.den * b.den⟩

/-- Rational multiplication. -/
def Q.mul (a b : Q) : Q := ⟨a.num * b.num, a.den * b.den⟩

/-- Absolute value. -/
def Q.abs (a : Q) : Q := ⟨|a.num|, a.den⟩

/-- Rational strict order (valid for positive denominators). -/
def Q.lt (a b : Q) : Bool := decide (a.num * b.den < b.num * a.den)

/-- Rational order (valid for positive denominators). -/
def Q.le (a b : Q) : Bool := decide (a.num * b.den ≤ b.num * a.den)

/-- Rational value equality (valid for positive denominators). -/
def Q.eqv (a b : Q) : Bool := decide (a.num * b.den = b.num * a.den)

/-- `2 ^ z` for an integer exponent. -/
def Q.pow2 (z : Int) : Q :=
  if 0 ≤ z then ⟨2 ^ z.toNat, 1⟩ else ⟨1, 2 ^ (-z).toNat⟩

/-- The exact integer value of `a`, when `a` is an integer. -/
def Q.toIntExact (a : Q) : Option Int :=
  if (a.den : Int) ∣ a.num then some (a.num / a.den) else none

/-- Floor of `a` (valid for positive denominators). -/
def Q.floor (a : Q) : Int := a.num.fdiv (a.den : Int)

/-- A Python number: either an `int` or a `float` (an exact dyadic
rational). -/
inductive PyNum where
  | pyInt (z : Int)
  | pyFloat (q : Q)
  deriving DecidableEq, Repr

/-- Numeric value of a Python number (Python compares `int` and `float`
numerically). -/
def PyNum.toQ : PyNum → Q
  | .pyInt z => Q.ofInt z
  | .pyFloat q => q

/-- Python's `round` with no digits argument: round-half-to-even to an
integer (`round` of an `int` is the identity). -/
def pyRound : PyNum → Int
  | .pyInt z => z
  | .pyFloat q =>
    let f := q.floor
    let r := q.sub (Q.ofInt f)
    if r.lt ⟨1, 2⟩ then f
    else if Q.lt ⟨1, 2⟩ r then f + 1
    else if f % 2 = 0 then f else f + 1

/-- Little-endian bytes of a natural number, fixed width. -/
def leBytesNat (n : Nat) (width : Nat) : List Nat :=
  (List.range width).map (fun i => n / 256 ^ i % 256)

/-- Natural number from little-endian bytes. -/
def leNat (bs : List Nat) : Nat :=
  bs.foldr (fun b acc => acc * 256 + b) 0

/-- Signed interpretation of little-endian bytes (two's complement). -/
def leInt (bs : List Nat) : Int :=
  let m := leNat bs
  let w := bs.length
  if m < 2 ^ (8 * w - 1) then (m : Int) else (m : Int) - 2 ^ (8 * w)

/-- Bit length of a natural number (structural, fuel-driven; the fuel `n`
itself always suffices). -/
def bitLenF : Nat → Nat → Nat
  | 0, _ => 0
  | f + 1, n => if n < 2 then n else bitLenF f (n / 2) + 1

/-- Greatest `e` with `2 ^ e ≤ a`, for `a > 0` (used only on concrete
inputs inside the float encoder). -/
def qFloorLog2 (a : Q) : Int :=
  let e0 : Int := (bitLenF a.num.natAbs a.num.natAbs : Int) - (bitLenF a.den a.den : Int)
  if (Q.pow2 e0).le a then e0 else e0 - 1

/-- Exact value of an IEEE-754 byte string (little-endian) with the given
mantissa and exponent field widths.  Non-finite encodings are modelled as 0
(they occur in no modelled scenario). -/
def decodeIEEE (manBits expBits : Nat) (bs : List Nat) : Q :=
  let n := leNat bs
  let man := n % 2 ^ manBits
  let e := n / 2 ^ manBits % 2 ^ expBits
  let s := n / 2 ^ (manBits + expBits) % 2
  let bias : Int := 2 ^ (expBits - 1) - 1
  let mag : Q :=
    if e = 0 then Q.mul ⟨man, 1⟩ (Q.pow2 (1 - bias - manBits))
    else if e = 2 ^ expBits - 1 then ⟨0, 1⟩
    else Q.mul ⟨(2 ^ manBits + man : Nat), 1⟩ (Q.pow2 ((e : Int) - bias - manBits))
  if s = 1 then ⟨-mag.num, mag.den⟩ else mag

/-- IEEE-754 encoding of an exactly representable rational (little-endian
bytes).  Returns `none` when the value is not exactly representable; values
originating from Python floats always are, so the `none` branch is
unreachable for faithful inputs. -/
def encodeIEEE (manBits expBits : Nat) (q : Q) : Option (List Nat) :=
  let width := (manBits + expBits + 1) / 8
  if q.num = 0 then some (leBytesNat 0 width) else
  let s : Nat := if q.num < 0 then 1 else 0
  let a := q.abs
  let bias : Int := 2 ^ (expBits - 1) - 1
  let e := qFloorLog2 a
  if e < 1 - bias then
    -- subnormal grid: unit in the last place is 2 ^ (1 - bias - manBits)
    match (Q.mul a (Q.pow2 (manBits + bias - 1))).toIntExact with
    | some m => if m < 2 ^ manBits then
        some (leBytesNat (s * 2 ^ (manBits + expBits) + m.toNat) width)
      else none
    | none => none
  else if bias < e then none
  else
    match (Q.mul a (Q.pow2 ((manBits : Int) - e))).toIntExact with
    | some m =>
      some (leBytesNat (s * 2 ^ (manBits + expBits)
        + (e + bias).toNat * 2 ^ manBits + (m.toNat - 2 ^ manBits)) width)
    | none => none

/-- `struct` decode of a finite float32 byte string. -/
def decodeFloat32 (bs : List Nat) : Q := decodeIEEE 23 8 bs

/-- `struct` decode of a finite float64 byte string. -/
def decodeFloat64 (bs : List Nat) : Q := decodeIEEE 52 11 bs

/-- The six value-type tags of `VALUE_FORMATS` in `process_inspector.py`
(`float` is float32, `double` is float64). -/
inductive ValueType where
  | int32 | uint32 | int64 | uint64 | float | double
  deriving DecidableEq, Repr

/-- Byte size of each value type (second component of `VALUE_FORMATS`). -/
def ValueType.size : ValueType → Nat
  | .int32 => 4 | .uint32 => 4 | .int64 => 8 | .uint64 => 8
  | .float => 4 | .double => 8

/-- Whether the struct format letter is a floating-point format. -/
def ValueType.isFloat : ValueType → Bool
  | .float => true | .double => true | _ => false

/-- Whether the struct format letter is a signed integer format. -/
def ValueType.isSigned : ValueType → Bool
  | .int32 => true | .int64 => true | _ => false

/-- `struct.pack` of a `PyNum` with an integer format of width `w` bytes:
requires an `int` argument within the format's range, else raises. -/
def structPackInt (v : PyNum) (w : Nat) (signed : Bool) : Except String (List Nat) :=
  match v with
  | .pyFloat _ => .error "required argument is not an integer"
  | .pyInt z =>
    let lo : Int := if signed then -(2 ^ (8 * w - 1)) else 0
    let hi : Int := if signed then 2 ^ (8 * w - 1) - 1 else 2 ^ (8 * w) - 1
    if lo ≤ z ∧ z ≤ hi then
      .ok (leBytesNat (z.emod (2 ^ (8 * w))).toNat w)
    else .error "argument out of range"

/-- `struct.pack` of a `PyNum` with a float format (the argument is first
converted by `float(...)`, modelled by `toQ`). -/
def structPackFloat (v : PyNum) (t : ValueType) : Except String (List Nat) :=
  let enc := if t = .float then encodeIEEE 23 8 v.toQ else encodeIEEE 52 11 v.toQ
  match enc with
  | some bs => .ok bs
  | none => .error "float value not exactly representable (rounding not modelled)"

/-- `struct.pack(fmt, value)` for one of the six supported formats. -/
def structPack (v : PyNum) (t : ValueType) : Except String (List Nat) :=
  if t.isFloat then structPackFloat v t
  else structPackInt v t.size t.isSigned

/-- `struct.unpack(fmt, raw)[0]` on a byte string of exactly the format's
size (callers below guarantee the size; `unpack_valueE` adds the length
check the `struct` module performs). -/
def structUnpack (bs : List Nat) (t : ValueType) : PyNum :=
  match t with
  | .int32 | .int64 => .pyInt (leInt (bs.take t.size))
  | .uint32 | .uint64 => .pyInt (leNat (bs.take t.size))
  | .float => .pyFloat (decodeFloat32 (bs.take 4))
  | .double => .pyFloat (decodeFloat64 (bs.take 8))

example : structPackInt (.pyInt 123456) 4 false = .ok [0x40, 0xE2, 0x01, 0x00] := by decide
example : (structPack (.pyFloat ⟨37, 10⟩) .int32).isOk = false := by decide
example : structPack (.pyFloat ⟨1, 1⟩) .double = .ok [0, 0, 0, 0, 0, 0, 0xF0, 0x3F] := by decide
example : (decodeFloat64 [0, 0, 0, 0, 1, 0, 0xF0, 0x3F]).eqv ⟨2 ^ 20 + 1, 2 ^ 20⟩ = true := by decide
example : pyRound (.pyFloat ⟨37, 10⟩) = 4 ∧ pyRound (.pyFloat ⟨5, 2⟩) = 2
    ∧ pyRound (.pyFloat ⟨1, 2⟩) = 0 ∧ pyRound (.pyFloat ⟨-1, 2⟩) = 0 := by decide
example : structPack (.pyInt 30) .float = .ok [0, 0, 0xF0, 0x41] := by decide

/-! ## Data model (`process_inspector.py`) -/

/-- `MEM_COMMIT` flag. -/
def MEM_COMMIT : Nat := 0x1000

/-- A committed readable memory extent (dataclass `Region`).  The Python
field `type` is rendered `type_flag` (`type` is reserved in Lean). -/
structure Region where
  base_address : Nat
  size : Nat
  protect : Nat := 0
  state : Nat := 0
  type_flag : Nat := 0
  description : String := ""
  deriving Repr

/-- The per-session scan context (dataclass `ScanContext`).  Mock memory
buffers (`mock_data : Dict[int, bytearray]`) become a function from region
base address to a byte function over offsets; mutation is modelled by
returning an updated context.  The `modules` list feeds only the address
labeler, which is outside the verified claims, and is omitted. -/
structure ScanContext where
  pid : Nat
  name : String
  pointer_size : Nat
  handle : Option Nat := none
  mock : Bool := false
  mock_regions : List Region := []
  mock_data : Nat → Nat → Nat := fun _ _ => 0
  mock_dynamic_addr : Option Nat := none
  mock_dynamic_type : ValueType := .int32
  mock_dynamic_value : PyNum := .pyFloat ⟨0, 1⟩
  mock_dynamic_step : PyNum := .pyFloat ⟨-1, 1⟩

/-- The bytes `d off, d (off+1), …` — a slice of length `n` of a byte
buffer. -/
def sliceBytes (d : Nat → Nat) (off : Nat) : Nat → List Nat
  | 0 => []
  | n + 1 => d off :: sliceBytes d (off + 1) n

/-- First region of the list containing the address (the scan over
`context.mock_regions` in `read_process_memory`). -/
def findRegion (regs : List Region) (a : Nat) : Option Region :=
  regs.find? (fun r => decide (r.base_address ≤ a ∧ a < r.base_address + r.size))

/-- `read_process_memory`: in mock mode, serve `block[offset :
offset+size]` from the first region containing the address (the Python
slice clamps at the end of the buffer); outside any region raise.  The
native path calls the OS (`ReadProcessMemory`) and is not modelled — every
claim concerns the mock backend, and a failed read is skipped by all
callers. -/
def read_process_memory (ctx : ScanContext) (address size : Nat) : Except String (List Nat) :=
  if ctx.mock then
    match findRegion ctx.mock_regions address with
    | some r =>
      let offset := address - r.base_address
      .ok (sliceBytes (ctx.mock_data r.base_address) offset (min size (r.size - offset)))
    | none => .error "Mock address outside generated regions."
  else .error "Process reading requires Windows and a valid handle."

/-! ## Value search (`search_values`) -/

namespace ProcessInspector

/-- `pack_value` of `process_inspector.py`: `struct.pack(fmt, value)` with
the raw value — no coercion — re-raising `struct.error` as `ValueError`.
In particular a Python float packed with an integer format raises. -/
def pack_value (value : PyNum) (fmt_key : ValueType) : Except String (List Nat) :=
  structPack value fmt_key

/-- Every start index at which `pat` occurs in `data` (ascending; overlap
allowed), as produced by the repeated `bytes.find` loop in
`search_values`. -/
def chunkOccurrences (data pat : List Nat) : List Nat :=
  (List.range data.length).filter (fun i => decide ((data.drop i).take pat.length = pat))

/-- The per-region chunk loop of `search_values`: read `min(0x4000,
region.size - offset)` bytes, collect every in-chunk match (absolute
addresses), skip the chunk on a read failure, advance by the chunk size.
The loop advances `offset` by at least one byte per iteration until
`offset ≥ region.size`, so the structural fuel `region.size` supplied by
`search_values` always suffices. -/
def search_region_loop (ctx : ScanContext) (r : Region) (pat : List Nat) :
    Nat → Nat → List Nat
  | 0, _ => []
  | fuel + 1, offset =>
    if offset < r.size then
      let toRead := min 0x4000 (r.size - offset)
      let address := r.base_address + offset
      let occs :=
        match read_process_memory ctx address toRead with
        | .error _ => []
        | .ok data => (chunkOccurrences data pat).map (address + ·)
      occs ++ search_region_loop ctx r pat fuel (offset + toRead)
    else []

/-- `search_values`: pack the target once, then scan every region in
chunks.  A pack failure (`ValueError`) propagates. -/
def search_values (ctx : ScanContext) (regions : List Region) (target_value : PyNum)
    (value_type : ValueType) : Except String (List Nat) :=
  (pack_value target_value value_type).map
    (fun pat => regions.flatMap (fun r => search_region_loop ctx r pat r.size 0))

end ProcessInspector

/-! ## Snapshots and candidate filtering -/

/-- A snapshot / candidate dictionary: insertion-ordered `address → value`
pairs with unique keys (Python `dict`). -/
abbrev Snap := List (Nat × PyNum)

/-- Python `dict` assignment `m[k] = v`: update in place, else append. -/
def dictInsert {α : Type} : List (Nat × α) → Nat → α → List (Nat × α)
  | [], k, v => [(k, v)]
  | (k', v') :: rest, k, v =>
    if k' = k then (k', v) :: rest else (k', v') :: dictInsert rest k v

/-- Python `m.get(k)` / `k in m`. -/
def dictGet? {α : Type} (l : List (Nat × α)) (k : Nat) : Option α :=
  (l.find? (fun e => e.1 = k)).map (·.2)

namespace ProcessInspector

/-- The per-region chunk loop of `take_snapshot`: decode `usable = len −
(len mod size)` bytes of every chunk in `size`-strides, skipping failed
reads.  A zero chunk size would loop forever in the source; the guard
returns nothing (all call sites pass a positive chunk size).  The offset
advances by at least one byte per iteration, so the structural fuel
`region.size` supplied by `take_snapshot` always suffices. -/
def snapshot_region_loop (ctx : ScanContext) (r : Region) (value_type : ValueType)
    (chunk_size : Nat) : Nat → Nat → List (Nat × PyNum)
  | 0, _ => []
  | fuel + 1, offset =>
    if offset < r.size ∧ 0 < chunk_size then
      let toRead := min chunk_size (r.size - offset)
      let address := r.base_address + offset
      let entries :=
        match read_process_memory ctx address toRead with
        | .error _ => []
        | .ok data =>
          let usable := data.length - data.length % value_type.size
          (List.range (usable / value_type.size)).map (fun k =>
            (address + k * value_type.size,
             structUnpack (data.drop (k * value_type.size)) value_type))
      entries ++ snapshot_region_loop ctx r value_type chunk_size fuel (offset + toRead)
    else []

/-- `take_snapshot`: address → decoded value over all regions (dictionary
insertion order; `struct.unpack` cannot fail since every slice has exactly
the format's size). -/
def take_snapshot (ctx : ScanContext) (regions : List Region) (value_type : ValueType)
    (chunk_size : Nat) : Snap :=
  regions.foldl
    (fun acc r =>
      (snapshot_region_loop ctx r value_type chunk_size r.size 0).foldl
        (fun m e => dictInsert m e.1 e.2) acc)
    []

/-- `compare_snapshots`: pairs `(old, new)` for addresses in both maps,
iterating the smaller map. -/
def compare_snapshots (previous current : Snap) : List (Nat × (PyNum × PyNum)) :=
  if previous.length ≤ current.length then
    previous.filterMap (fun e => (dictGet? current e.1).map (fun nv => (e.1, (e.2, nv))))
  else
    current.filterMap (fun e => (dictGet? previous e.1).map (fun ov => (e.1, (ov, e.2))))

/-- `filter_snapshot_by_regions`: keep entries inside some region of the
list. -/
def filter_snapshot_by_regions (snapshot : Snap) (regions : List Region) : Snap :=
  if regions.isEmpty then []
  else snapshot.filter (fun e =>
    regions.any (fun r => decide (r.base_address ≤ e.1 ∧ e.1 < r.base_address + r.size)))

/-- `values_equal`: tolerance `1e-5` for float32, `1e-9` for float64, exact
numeric equality otherwise. -/
def values_equal (old new : PyNum) (value_type : ValueType) : Bool :=
  if value_type = .float ∨ value_type = .double then
    if value_type = .float then ((new.toQ.sub old.toQ).abs).le ⟨1, 100000⟩
    else ((new.toQ.sub old.toQ).abs).le ⟨1, 1000000000⟩
  else new.toQ.eqv old.toQ

/-- The trend relations of the dynamic scan. -/
inductive Relation where
  | increase | decrease | same
  deriving DecidableEq, Repr

/-- `filter_candidates`: keep the addresses whose `(old, new)` pair
satisfies the relation, mapped to the new value. -/
def filter_candidates (comparisons : List (Nat × (PyNum × PyNum))) (relation : Relation)
    (value_type : ValueType) : Snap :=
  comparisons.filterMap (fun e =>
    match relation with
    | .increase => if Q.lt e.2.1.toQ e.2.2.toQ then some (e.1, e.2.2) else none
    | .decrease => if Q.lt e.2.2.toQ e.2.1.toQ then some (e.1, e.2.2) else none
    | .same => if values_equal e.2.1 e.2.2 value_type then some (e.1, e.2.2) else none)

end ProcessInspector

/-! ## Dynamic scan loop (`run_dynamic_scan_loop`) -/

namespace ProcessInspector

/-- Loop state of `run_dynamic_scan_loop`: the narrowable region list, the
previous snapshot, the optional candidate set, and whether the loop has
broken out. -/
structure DynState where
  regions : List Region
  prev : Snap
  cands : Option Snap := none
  finished : Bool := false

/-- The external inputs consumed by one iteration of the loop: the fresh
snapshot (the target's memory evolves between steps), the region narrowing
chosen if the slow-snapshot prompt fired (`none` = no narrowing; the
wall-clock trigger is not modellable and is part of the oracle), and the
trend answer (`none` models quitting at the trend prompt). -/
structure StepInput where
  next : Snap
  reduceTo : Option (List Region) := none
  relation : Option Relation

/-- One iteration of the `while` body of `run_dynamic_scan_loop` (lines
593–633): optional region narrowing restricting both snapshots, comparison
construction (full compare when no candidate set, candidate-restricted
otherwise), then trend filtering with the `≤ 3` success break and the
0-candidate restart. -/
def run_dynamic_step (value_type : ValueType) (st : DynState) (inp : StepInput) : DynState :=
  if st.finished then st else
  let regions := match inp.reduceTo with | none => st.regions | some rs => rs
  let prev := match inp.reduceTo with
    | none => st.prev
    | some rs => filter_snapshot_by_regions st.prev rs
  let next := match inp.reduceTo with
    | none => inp.next
    | some rs => filter_snapshot_by_regions inp.next rs
  let comparisons :=
    match st.cands with
    | none => compare_snapshots prev next
    | some cands =>
      cands.filterMap (fun e => (dictGet? next e.1).map (fun nv => (e.1, (e.2, nv))))
  if comparisons.isEmpty then
    { regions := regions, prev := next, cands := st.cands, finished := false }
  else
    match inp.relation with
    | none => { regions := regions, prev := prev, cands := none, finished := true }
    | some rel =>
      let cands := filter_candidates comparisons rel value_type
      if 0 < cands.length ∧ cands.length ≤ 3 then
        { regions := regions, prev := prev, cands := some cands, finished := true }
      else if cands.length = 0 then
        { regions := regions, prev := next, cands := none, finished := false }
      else
        { regions := regions, prev := next, cands := some cands, finished := false }

/-- The states reached by successive loop iterations on a script of step
inputs (state after step 1, after step 2, …). -/
def run_dynamic_trace (value_type : ValueType) (st : DynState) :
    List StepInput → List DynState
  | [] => []
  | inp :: rest =>
    let st' := run_dynamic_step value_type st inp
    st' :: run_dynamic_trace value_type st' rest

/-- Number of candidate addresses carried by a loop state (`None` carries
none). -/
def candCount (st : DynState) : Nat :=
  match st.cands with
  | none => 0
  | some c => c.length

end ProcessInspector

/-! ## Reference tracing (`find_pointer_references`, `trace_references`) -/

namespace ProcessInspector

/-- The per-region chunk loop of `find_pointer_references`: the loop runs
while `offset + pointer_size ≤ region.size`, reads `min(0x4000, size −
offset)` bytes and compares `pointer_size`-strided windows of the chunk
against the target bytes.  A zero pointer size would raise in the source
(`range` step 0); the guard returns nothing.  The offset advances by at
least one byte per iteration, so the structural fuel `region.size`
supplied by `find_pointer_references` always suffices. -/
def find_pointer_references_loop (ctx : ScanContext) (r : Region) (target_bytes : List Nat)
    (ps : Nat) : Nat → Nat → List Nat
  | 0, _ => []
  | fuel + 1, offset =>
    if offset + ps ≤ r.size ∧ 0 < ps then
      let toRead := min 0x4000 (r.size - offset)
      let address := r.base_address + offset
      let refs :=
        match read_process_memory ctx address toRead with
        | .error _ => []
        | .ok data =>
          (List.range (data.length / ps)).filterMap (fun k =>
            if (data.drop (k * ps)).take ps = target_bytes then some (address + k * ps)
            else none)
      refs ++ find_pointer_references_loop ctx r target_bytes ps fuel (offset + toRead)
    else []

/-- `find_pointer_references`: addresses of `pointer_size`-strided
little-endian words equal to the target, across all regions.
`int.to_bytes` would raise for a target not fitting in `pointer_size`
bytes; every target in use is an in-range address, and the overflow is not
modelled. -/
def find_pointer_references (ctx : ScanContext) (regions : List Region) (target : Nat) :
    List Nat :=
  let target_bytes := leBytesNat target ctx.pointer_size
  regions.flatMap (fun r =>
    find_pointer_references_loop ctx r target_bytes ctx.pointer_size r.size 0)

/-- The breadth-first frontier: insertion-ordered `target → paths ending at
target` (Python `dict` of lists). -/
abbrev Frontier := List (Nat × List (List Nat))

/-- `next_frontier.setdefault(ref, []).append(new_path)`. -/
def frontier_add : List (Nat × List (List Nat)) → Nat → List Nat → List (Nat × List (List Nat))
  | [], ref, path => [(ref, [path])]
  | (k, paths) :: rest, ref, path =>
    if k = ref then (k, paths ++ [path]) :: rest
    else (k, paths) :: frontier_add rest ref path

/-- One depth iteration of `trace_references`: for every frontier entry,
find its referrers and extend every existing path, collecting the new
chains (in iteration order) and the next frontier. -/
def trace_depth (ctx : ScanContext) (regions : List Region) (frontier : Frontier) :
    List (List Nat) × Frontier :=
  frontier.foldl
    (fun acc entry =>
      let refs := find_pointer_references ctx regions entry.1
      refs.foldl
        (fun acc2 ref =>
          entry.2.foldl
            (fun acc3 path =>
              (acc3.1 ++ [ref :: path], frontier_add acc3.2 ref (ref :: path)))
            acc2)
        acc)
    ([], [])

/-- The depth-bounded `while frontier and depth < max_depth` loop,
accumulating chains across depths. -/
def trace_loop (ctx : ScanContext) (regions : List Region) (frontier : Frontier) :
    Nat → List (List Nat)
  | 0 => []
  | fuel + 1 =>
    if frontier.isEmpty then []
    else
      let step := trace_depth ctx regions frontier
      step.1 ++ trace_loop ctx regions step.2 fuel

/-- `trace_references`: all pointer chains `[a_k, …, a_0]` with `a_0` a
seed, discovered up to `max_depth`. -/
def trace_references (ctx : ScanContext) (regions : List Region) (seeds : List Nat)
    (max_depth : Nat) : List (List Nat) :=
  trace_loop ctx regions (seeds.foldl (fun fr a => dictInsert fr a [[a]]) []) max_depth

end ProcessInspector

/-! ## Pattern generation (`generate_pattern`) and the mock context -/

/-- Uppercase hex digit. -/
def hexDigitChar (n : Nat) : Char :=
  match n with
  | 0 => '0' | 1 => '1' | 2 => '2' | 3 => '3' | 4 => '4'
  | 5 => '5' | 6 => '6' | 7 => '7' | 8 => '8' | 9 => '9'
  | 10 => 'A' | 11 => 'B' | 12 => 'C' | 13 => 'D' | 14 => 'E'
  | _ => 'F'

/-- `f"{byte:02X}"` for a byte value. -/
def byteHexUpper (b : Nat) : String :=
  String.mk [hexDigitChar (b / 16 % 16), hexDigitChar (b % 16)]

/-- `" ".join`. -/
def joinSpace : List String → String
  | [] => ""
  | [s] => s
  | s :: rest => s ++ " " ++ joinSpace rest

namespace ProcessInspector

/-- Result dictionary of `generate_pattern`. -/
structure SignatureResult where
  address : Nat
  start : Nat
  pattern : String
  mask : String
  deriving DecidableEq, Repr

/-- `generate_pattern`: read `window` bytes starting at `max(address −
window/2, 0)` (the `Nat` subtraction clamps exactly like the `max`), emit
uppercase space-joined hex and an all-`x` mask; on a read failure both
strings are empty. -/
def generate_pattern (ctx : ScanContext) (address : Nat) (window : Nat) : SignatureResult :=
  let half := window / 2
  let start := address - half
  let data :=
    match read_process_memory ctx start window with
    | .error _ => []
    | .ok d => d
  { address := address
    start := start
    pattern := joinSpace (data.map byteHexUpper)
    mask := String.mk (data.map (fun _ => 'x')) }

end ProcessInspector

/-- Bytes of mock region 1: float32 bytes of `3.14159` at offset `0x400`
(`struct.pack('<f', 3.14159)` = `D0 0F 49 40`, rounding to the nearest
float32), `uint32 123456` at `0x800`, `int32 30` at `0x900`. -/
def mockRegion1Data (off : Nat) : Nat :=
  if off = 0x400 then 0xD0 else if off = 0x401 then 0x0F
  else if off = 0x402 then 0x49 else if off = 0x403 then 0x40
  else if off = 0x800 then 0x40 else if off = 0x801 then 0xE2
  else if off = 0x802 then 0x01
  else if off = 0x900 then 0x1E
  else 0

/-- Bytes of mock region 2: a uint64 `0x10000400` at offset `0x100` and a
uint64 `0x20000100` at offset `0x108`. -/
def mockRegion2Data (off : Nat) : Nat :=
  if off = 0x101 then 0x04 else if off = 0x103 then 0x10
  else if off = 0x109 then 0x01 else if off = 0x10B then 0x20
  else 0

/-- `build_mock_context`: two `0x2000`-byte regions at `0x10000000` and
`0x20000000` with the deterministic demo contents above. -/
def build_mock_context : ScanContext :=
  { pid := 9999
    name := "mock-process"
    pointer_size := 8
    mock := true
    mock_regions :=
      [ { base_address := 0x10000000, size := 0x2000, state := MEM_COMMIT,
          description := "mock-region-1" },
        { base_address := 0x20000000, size := 0x2000, state := MEM_COMMIT,
          description := "mock-region-2" } ]
    mock_data := fun b =>
      if b = 0x10000000 then mockRegion1Data
      else if b = 0x20000000 then mockRegion2Data
      else fun _ => 0
    mock_dynamic_addr := some 0x10000900
    mock_dynamic_type := .int32
    mock_dynamic_value := .pyInt 30
    mock_dynamic_step := .pyInt (-1) }

example : leBytesNat 0x10000400 8 = [0x00, 0x04, 0x00, 0x10, 0, 0, 0, 0] := by decide
example : sliceBytes mockRegion2Data 0x100 8 = leBytesNat 0x10000400 8 := by decide
example : sliceBytes mockRegion2Data 0x108 8 = leBytesNat 0x20000100 8 := by decide

/-! ## Addon shared helpers (`addon/utils.py`) -/

namespace AddonUtils

/-- Membership in the addon's `VALUE_TYPES` table (only `int32`, `int64`,
`float`, `double`). -/
def isAddonType : ValueType → Bool
  | .int32 | .int64 | .float | .double => true
  | _ => false

/-- `ensure_value_type`: raise on a type outside the addon table. -/
def ensure_value_type (value_type : ValueType) : Except String ValueType :=
  if isAddonType value_type then .ok value_type
  else .error "Unsupported patch value type"

/-- `pack_value` of `addon/utils.py`: integer formats coerce by
`int(round(value))` (Python banker's rounding) before `struct.pack`, which
still raises when the rounded integer exceeds the format's range; float
formats pack `float(value)`. -/
def pack_value (value : PyNum) (value_type : ValueType) : Except String (List Nat) :=
  match ensure_value_type value_type with
  | .error e => .error e
  | .ok _ =>
    if value_type = .int32 ∨ value_type = .int64 then
      structPackInt (.pyInt (pyRound value)) value_type.size true
    else structPackFloat value value_type

/-- `unpack_value` (with the length check `struct.unpack` performs),
followed by the `float(...)` conversion of the source — i.e. the numeric
value of the decoded word. -/
def unpack_valueE (raw : List Nat) (value_type : ValueType) : Except String Q :=
  match ensure_value_type value_type with
  | .error e => .error e
  | .ok _ =>
    if raw.length = value_type.size then .ok (structUnpack raw value_type).toQ
    else .error "unpack requires a buffer of the format size"

/-- `read_value` through a caller-provided reader (the only use in the
claims passes one; the default OS-backed reader is outside the model). -/
def read_value (ctx : ScanContext) (address : Nat) (value_type : ValueType)
    (read_callback : ScanContext → Nat → Nat → List Nat) : Except String Q :=
  unpack_valueE (read_callback ctx address value_type.size) value_type

/-- `"0x%X"` rendering of an address. -/
def natHexAux : Nat → Nat → List Char
  | 0, _ => []
  | f + 1, n => if n = 0 then [] else natHexAux f (n / 16) ++ [hexDigitChar (n % 16)]

/-- `f"0x{address:X}"`. -/
def natHexUpper (n : Nat) : String :=
  if n = 0 then "0" else String.mk (natHexAux n n)

/-- `format_address_label`: the describe function if given (exceptions from
it are swallowed in the source; it is modelled total), else hex. -/
def format_address_label (address : Nat) (describe_func : Option (Nat → String)) : String :=
  match describe_func with
  | some f => f address
  | none => "0x" ++ natHexUpper address

/-- One line of the append-only patch log (`log_patch_attempt`): the result
dictionary plus `action` and optional `reason`.  The wall-clock timestamp
is not modelled. -/
structure LogEntry where
  address : Nat
  label : String
  value : PyNum
  value_type : ValueType
  dry_run : Bool
  success : Bool
  verified : Bool
  error : Option String
  action : String
  reason : Option String := none

end AddonUtils

/-! ## Write path (`addon/auto_patch.py`) -/

namespace AutoPatch

/-- The consent phrase. -/
def CONFIRMATION_PHRASE : String := "YES I OWN THIS COPY"

/-- Python `str.strip()`. -/
def pyStrip (s : String) : String :=
  String.mk (((s.data.dropWhile Char.isWhitespace).reverse.dropWhile Char.isWhitespace).reverse)

/-- Interactive and process-global state threaded through the write path:
the module-global `_confirmation_granted` flag, the queue of pending
interactive answers, the native process memory as written through
`WriteProcessMemory` (modelled from the spec, 4.1: a write stores all bytes
or fails; an OS-level failure is not modelled), and the patch log. -/
structure PatchState where
  granted : Bool := false
  prompts : List String := []
  nativeMem : Nat → Nat := fun _ => 0
  log : List AddonUtils.LogEntry := []

/-- `require_write_confirmation`: immediately true if already granted, else
consume one prompt answer and grant iff it is exactly the phrase. -/
def require_write_confirmation (st : PatchState) : Bool × PatchState :=
  if st.granted then (true, st)
  else
    let ans := pyStrip (st.prompts.headD "")
    let st1 : PatchState := { st with prompts := st.prompts.tail }
    if ans = CONFIRMATION_PHRASE then (true, { st1 with granted := true })
    else (false, st1)

/-- Store `bytes` at offsets `off, off+1, …` of a byte buffer. -/
def writeBytes (d : Nat → Nat) (off : Nat) (bytes : List Nat) : Nat → Nat :=
  fun i => if off ≤ i ∧ i < off + bytes.length then bytes.getD (i - off) 0 else d i

/-- `_write_mock_memory`: store into the first mock region whose span
admits the whole write (`start ≤ address ≤ end − size`, computed over ℤ as
in Python), else raise. -/
def write_mock_memory (ctx : ScanContext) (address : Nat) (data : List Nat) :
    Except String ScanContext :=
  match ctx.mock_regions.find? (fun r =>
      decide ((r.base_address : Int) ≤ address
        ∧ (address : Int) ≤ (r.base_address : Int) + r.size - data.length)) with
  | some r =>
    let updated := writeBytes (ctx.mock_data r.base_address) (address - r.base_address) data
    .ok { ctx with mock_data := fun b =>
      if b = r.base_address then updated else ctx.mock_data b }
  | none => .error "Mock write outside of allocated regions"

/-- `_write_process_memory`: raise without a handle, else store through the
OS (modelled from the spec, 4.1: all bytes are written; an OS-reported
failure is not modelled). -/
def write_process_memory (ctx : ScanContext) (st : PatchState) (address : Nat)
    (data : List Nat) : Except String PatchState :=
  match ctx.handle with
  | none => .error "Process handle missing; cannot write memory."
  | some _ => .ok { st with nativeMem := writeBytes st.nativeMem address data }

/-- The per-write result dictionary of `write_process_value`. -/
structure WriteResult where
  address : Nat
  label : String
  value : PyNum
  value_type : ValueType
  dry_run : Bool
  success : Bool
  verified : Bool
  error : Option String

/-- Log-entry construction `{**result, "action": …, "reason": …}`. -/
def mkLogEntry (r : WriteResult) (action : String) (reason : Option String) :
    AddonUtils.LogEntry :=
  { address := r.address, label := r.label, value := r.value,
    value_type := r.value_type, dry_run := r.dry_run, success := r.success,
    verified := r.verified, error := r.error, action := action, reason := reason }

/-- Append one log line (`log_patch_attempt`). -/
def addLog (st : PatchState) (r : WriteResult) (action : String) (reason : Option String) :
    PatchState :=
  { st with log := st.log ++ [mkLogEntry r action reason] }

/-- The `try` block plus final logging of `write_process_value` (everything
after the confirmation gate): dry-run shortcut, mock or native write with
exceptions recorded in `error`, optional verification read-back compared
with the fixed strict `1e-4` tolerance of line 108, then one log line with
action `write`/`dry_run`. -/
def write_attempt (ctx : ScanContext) (address : Nat) (value : PyNum)
    (value_type : ValueType) (read_callback : Option (ScanContext → Nat → Nat → List Nat))
    (dry_run : Bool) (result0 : WriteResult) (packed : List Nat) (st : PatchState) :
    WriteResult × ScanContext × PatchState :=
  if dry_run then
    let result := { result0 with success := true }
    (result, ctx, addLog st result "dry_run" none)
  else
    let written : Except String (ScanContext × PatchState) :=
      if ctx.mock then (write_mock_memory ctx address packed).map (fun c => (c, st))
      else (write_process_memory ctx st address packed).map (fun s => (ctx, s))
    match written with
    | .error e =>
      let result := { result0 with error := some e }
      (result, ctx, addLog st result "write" none)
    | .ok (ctx', st') =>
      let result1 := { result0 with success := true }
      let result2 :=
        match read_callback with
        | none => result1
        | some cb =>
          match AddonUtils.read_value ctx' address value_type cb with
          | .ok verification =>
            { result1 with verified := Q.lt ((verification.sub value.toQ).abs) ⟨1, 10000⟩ }
          | .error e => { result1 with error := some e }
      (result2, ctx', addLog st' result2 "write" none)

/-- `write_process_value`: pack (a pack failure is raised before the `try`
and propagates), then the confirmation gate (line 87: prompt only when
required), then the write attempt. -/
def write_process_value (ctx : ScanContext) (address : Nat) (value : PyNum)
    (value_type : ValueType) (read_callback : Option (ScanContext → Nat → Nat → List Nat))
    (describe_func : Option (Nat → String)) (dry_run : Bool)
    (require_confirmation : Bool) (st : PatchState) :
    Except String (WriteResult × ScanContext × PatchState) :=
  let label := AddonUtils.format_address_label address describe_func
  match AddonUtils.pack_value value value_type with
  | .error e => .error e
  | .ok packed =>
    let result0 : WriteResult :=
      { address := address, label := label, value := value, value_type := value_type,
        dry_run := dry_run, success := false, verified := false, error := none }
    if require_confirmation then
      match require_write_confirmation st with
      | (true, st1) =>
        .ok (write_attempt ctx address value value_type read_callback dry_run result0 packed st1)
      | (false, st1) =>
        let result := { result0 with error := some "confirmation_missing" }
        .ok (result, ctx, addLog st1 result "skip" (some "confirmation_missing"))
    else
      .ok (write_attempt ctx address value value_type read_callback dry_run result0 packed st)

/-- The loop of `auto_apply_patch`, threading context and state; each
per-address call receives `require_confirmation and not dry_run`. -/
def auto_apply_patch_loop (value : PyNum) (value_type : ValueType)
    (read_callback : Option (ScanContext → Nat → Nat → List Nat))
    (describe_func : Option (Nat → String)) (dry_run require_confirmation : Bool) :
    List Nat → ScanContext → PatchState → List WriteResult →
    Except String (List WriteResult × ScanContext × PatchState)
  | [], ctx, st, acc => .ok (acc, ctx, st)
  | a :: rest, ctx, st, acc =>
    match write_process_value ctx a value value_type read_callback describe_func dry_run
        (require_confirmation && !dry_run) st with
    | .error e => .error e
    | .ok (r, ctx', st') =>
      auto_apply_patch_loop value value_type read_callback describe_func dry_run
        require_confirmation rest ctx' st' (acc ++ [r])

/-- `auto_apply_patch`: the single-write contract across an iterable of
addresses. -/
def auto_apply_patch (ctx : ScanContext) (addresses : List Nat) (value : PyNum)
    (value_type : ValueType) (read_callback : Option (ScanContext → Nat → Nat → List Nat))
    (describe_func : Option (Nat → String)) (dry_run require_confirmation : Bool)
    (st : PatchState) : Except String (List WriteResult × ScanContext × PatchState) :=
  auto_apply_patch_loop value value_type read_callback describe_func dry_run
    require_confirmation addresses ctx st []

/-- `run_watch_patch_loop`: repeat the batch write until the operator
interrupts; the number of completed iterations before the interrupt is the
oracle `iterations` (wall-clock sleeping is not modelled). -/
def run_watch_patch_loop (ctx : ScanContext) (addresses : List Nat) (value : PyNum)
    (value_type : ValueType) (read_callback : Option (ScanContext → Nat → Nat → List Nat))
    (describe_func : Option (Nat → String)) (dry_run require_confirmation : Bool)
    (iterations : Nat) (st : PatchState) : Except String (ScanContext × PatchState) :=
  match iterations with
  | 0 => .ok (ctx, st)
  | n + 1 =>
    match auto_apply_patch ctx addresses value value_type read_callback describe_func
        dry_run require_confirmation st with
    | .error e => .error e
    | .ok (_, ctx', st') =>
      run_watch_patch_loop ctx' addresses value value_type read_callback describe_func
        dry_run require_confirmation n st'

end AutoPatch

/-! ## Orchestration (`addon/patch_runner.py`) -/

namespace PatchRunner

/-- The recognized addon configuration options (`DEFAULT_CONFIG` merged
with `addon_config.json`; the file loading itself is I/O and the merged
result is passed in).  `log_path` only names the log file and is not
modelled. -/
structure AddonConfig where
  auto_threshold : Int := 3
  dry_run : Bool := true
  enforce_interval : Q := ⟨0, 1⟩
  patch_value : Option PyNum := none
  patch_type : Option ValueType := none

/-- The argparse namespace fields consulted by `execute_autopatch`. -/
structure ScanArgs where
  patch_value : Option PyNum := none
  patch_type : Option ValueType := none
  auto_threshold : Option Int := none
  enforce_interval : Option Q := none
  addon_dry_run : Option Bool := none
  dynamic : Bool := false

/-- `_resolve_patch_value`: the CLI value, else `float(config value)`, else
`float(first discovered value)`, else nothing. -/
def resolve_patch_value (args_value : Option PyNum) (config : AddonConfig)
    (discovered_values : Snap) : Option PyNum :=
  match args_value with
  | some v => some v
  | none =>
    match config.patch_value with
    | some cv => some (.pyFloat cv.toQ)
    | none =>
      match discovered_values with
      | [] => none
      | e :: _ => some (.pyFloat e.2.toQ)

/-- `_resolve_patch_type`: CLI type, else config type, else the scan's
type. -/
def resolve_patch_type (args_type : Option ValueType) (config : AddonConfig)
    (fallback_type : ValueType) : ValueType :=
  match args_type with
  | some t => t
  | none => config.patch_type.getD fallback_type

/-- `should_auto_patch`: `0 < count ≤ max(1, threshold)`. -/
def should_auto_patch (addresses : List Nat) (threshold : Int) : Bool :=
  decide (0 < addresses.length ∧ (addresses.length : Int) ≤ max 1 threshold)

/-- How a call to `execute_autopatch` ended. -/
inductive AutopatchOutcome where
  | noAddresses
  | thresholdBlocked (threshold : Int)
  | noValue
  | notDynamic
  | confirmationAborted
  | ran (results : List AutoPatch.WriteResult) (enteredWatch : Bool)

/-- The tail of `execute_autopatch` after every gate has passed: the batch
write with `require_confirmation=False`, then the watch loop if the
enforcement interval is positive (also with `require_confirmation=False`).
-/
def execute_autopatch_run (ctx : ScanContext) (addresses : List Nat) (patch_value : PyNum)
    (patch_type : ValueType) (describe_func : Option (Nat → String))
    (read_func : ScanContext → Nat → Nat → List Nat) (dry_run : Bool) (watch_interval : Q)
    (watch_iterations : Nat) (st : AutoPatch.PatchState) :
    Except String (AutopatchOutcome × ScanContext × AutoPatch.PatchState) :=
  match AutoPatch.auto_apply_patch ctx addresses patch_value patch_type (some read_func)
      describe_func dry_run false st with
  | .error e => .error e
  | .ok (results, ctx2, st2) =>
    if Q.lt ⟨0, 1⟩ watch_interval then
      match AutoPatch.run_watch_patch_loop ctx2 addresses patch_value patch_type
          (some read_func) describe_func dry_run false watch_iterations st2 with
      | .error e => .error e
      | .ok (ctx3, st3) => .ok (.ran results true, ctx3, st3)
    else .ok (.ran results false, ctx2, st2)

/-- `execute_autopatch`: the gates in source order — empty address list,
threshold (`should_auto_patch`), value resolution, type validation, the
dynamic-scan requirement, dry-run resolution, then a single up-front
confirmation for live mode, then the batch (and optional watch loop), both
invoked with `require_confirmation=False`. -/
def execute_autopatch (ctx : ScanContext) (addresses : List Nat) (args : ScanArgs)
    (value_type : ValueType) (discovered_values : Snap)
    (describe_func : Option (Nat → String))
    (read_func : ScanContext → Nat → Nat → List Nat) (config : AddonConfig)
    (watch_iterations : Nat) (st : AutoPatch.PatchState) :
    Except String (AutopatchOutcome × ScanContext × AutoPatch.PatchState) :=
  if addresses.isEmpty then .ok (.noAddresses, ctx, st) else
  let threshold := args.auto_threshold.getD config.auto_threshold
  if !should_auto_patch addresses threshold then
    .ok (.thresholdBlocked threshold, ctx, st)
  else
    match resolve_patch_value args.patch_value config discovered_values with
    | none => .ok (.noValue, ctx, st)
    | some patch_value =>
      let patch_type := resolve_patch_type args.patch_type config value_type
      match AddonUtils.ensure_value_type patch_type with
      | .error e => .error e
      | .ok _ =>
        if args.dynamic = false then .ok (.notDynamic, ctx, st) else
        let dry_run := args.addon_dry_run.getD config.dry_run
        let watch_interval := args.enforce_interval.getD config.enforce_interval
        if !dry_run then
          match AutoPatch.require_write_confirmation st with
          | (false, st1) => .ok (.confirmationAborted, ctx, st1)
          | (true, st1) =>
            execute_autopatch_run ctx addresses patch_value patch_type describe_func
              read_func dry_run watch_interval watch_iterations st1
        else
          execute_autopatch_run ctx addresses patch_value patch_type describe_func
            read_func dry_run watch_interval watch_iterations st

end PatchRunner

/-! ## Claim C8 — float-to-integer packing coercion -/

/-- C8 counterexample: packing the float `3.7` as `int32` on the
search/rescan path (`process_inspector.pack_value`) raises instead of
rounding — the claim asserts coercion "wherever the program packs values:
the search/rescan path and the write path". -/
theorem c8_counterexample :
    ProcessInspector.pack_value (.pyFloat ⟨37, 10⟩) .int32
      = .error "required argument is not an integer" := by decide

/-- C8 (amended): only the addon write path coerces.  For a float value
and a signed-integer addon type, `addon.utils.pack_value` packs the
little-endian bytes of the Python-rounded (half-to-even) integer — never
raising while the rounded value fits the type's range — while
`process_inspector.pack_value` raises on every float, even integral-valued
ones. -/
theorem c8_addon_rounds_search_raises (q : Q) (t : ValueType)
    (hind : t = .int32 ∨ t = .int64)
    (hlo : -(2 ^ (8 * t.size - 1)) ≤ pyRound (.pyFloat q))
    (hhi : pyRound (.pyFloat q) ≤ 2 ^ (8 * t.size - 1) - 1) :
    AddonUtils.pack_value (.pyFloat q) t
      = .ok (leBytesNat ((pyRound (.pyFloat q)).emod (2 ^ (8 * t.size))).toNat t.size)
    ∧ (ProcessInspector.pack_value (.pyFloat q) t).isOk = false := by
  rcases hind with h | h <;> subst h <;>
    simp [AddonUtils.pack_value, AddonUtils.ensure_value_type, AddonUtils.isAddonType,
      ProcessInspector.pack_value, structPack, structPackInt, ValueType.isFloat,
      ValueType.isSigned, ValueType.size, Except.isOk, Except.toBool] at * <;>
    exact ⟨hlo, hhi⟩

/-- C8 witness: `3.7` into `int32` gives the bytes of `4` on the write
path and raises on the search path. -/
theorem c8_witness :
    AddonUtils.pack_value (.pyFloat ⟨37, 10⟩) .int32 = .ok [4, 0, 0, 0]
    ∧ (ProcessInspector.pack_value (.pyFloat ⟨37, 10⟩) .int32).isOk = false := by
  have h := c8_addon_rounds_search_raises ⟨37, 10⟩ .int32 (Or.inl rfl) (by decide) (by decide)
  refine ⟨?_, h.2⟩
  rw [h.1]
  decide

/-! ## Claim C9 — signature window in the mock context -/

/-- C9 counterexample: at address `0x10000400` with window 8 the start is
`max(0x10000400 − 4, 0) = 0x100003FC`, not the `0x103FFFFC` the claim
states. -/
theorem c9_counterexample :
    (ProcessInspector.generate_pattern build_mock_context 0x10000400 8).start = 0x100003FC
    ∧ (ProcessInspector.generate_pattern build_mock_context 0x10000400 8).start ≠ 0x103FFFFC := by
  constructor <;> decide

/-- C9 (amended): `generate_pattern` in the mock context at `0x10000400`
with window 8 returns `start = 0x100003FC`, a pattern of 8 uppercase
space-separated hex bytes (the four zero bytes preceding the float and the
float32 bytes of 3.14159), and the mask `xxxxxxxx`. -/
theorem c9_generate_pattern_mock :
    ProcessInspector.generate_pattern build_mock_context 0x10000400 8 =
      { address := 0x10000400, start := 0x100003FC,
        pattern := "00 00 00 00 D0 0F 49 40", mask := "xxxxxxxx" } := by decide

/-! ## Shared lemmas about the write path -/

/-- Whether an autopatch call reached the batch write. -/
def PatchRunner.AutopatchOutcome.isRan : PatchRunner.AutopatchOutcome → Bool
  | .ran _ _ => true
  | _ => false

/-- `write_attempt` touches only the log, the memory, and the context —
never the prompt queue or the consent flag. -/
theorem write_attempt_state (ctx : ScanContext) (a : Nat) (v : PyNum) (vt : ValueType)
    (rb : Option (ScanContext → Nat → Nat → List Nat)) (dry : Bool)
    (r0 : AutoPatch.WriteResult) (packed : List Nat) (st : AutoPatch.PatchState) :
    (AutoPatch.write_attempt ctx a v vt rb dry r0 packed st).2.2.prompts = st.prompts
    ∧ (AutoPatch.write_attempt ctx a v vt rb dry r0 packed st).2.2.granted = st.granted := by
  unfold AutoPatch.write_attempt
  split
  · exact ⟨rfl, rfl⟩
  · rcases hw : (if ctx.mock then (AutoPatch.write_mock_memory ctx a packed).map (fun c => (c, st))
        else (AutoPatch.write_process_memory ctx st a packed).map (fun s => (ctx, s))) with e | ⟨ctx', st'⟩
    · simp [hw, AutoPatch.addLog]
    · have hst' : st'.prompts = st.prompts ∧ st'.granted = st.granted := by
        by_cases hm : ctx.mock
        · simp only [hm, if_true] at hw
          rcases hmm : AutoPatch.write_mock_memory ctx a packed with e' | c'
          · simp [hmm, Except.map] at hw
          · simp [hmm, Except.map] at hw
            exact ⟨by rw [← hw.2], by rw [← hw.2]⟩
        · simp only [hm, if_false, Bool.false_eq_true] at hw
          unfold AutoPatch.write_process_memory at hw
          rcases hh : ctx.handle with _ | h
          · simp [hh, Except.map] at hw
          · simp [hh, Except.map] at hw
            rw [← hw.2]
            exact ⟨rfl, rfl⟩
      simp only [hw, AutoPatch.addLog]
      exact hst'

/-- A write with `require_confirmation=False` never prompts and never
changes the consent flag. -/
theorem write_process_value_no_confirm (ctx : ScanContext) (a : Nat) (v : PyNum)
    (vt : ValueType) (rb : Option (ScanContext → Nat → Nat → List Nat))
    (df : Option (Nat → String)) (dry : Bool) (st : AutoPatch.PatchState)
    (r : AutoPatch.WriteResult) (ctx' : ScanContext) (st' : AutoPatch.PatchState)
    (h : AutoPatch.write_process_value ctx a v vt rb df dry false st = .ok (r, ctx', st')) :
    st'.prompts = st.prompts ∧ st'.granted = st.granted := by
  unfold AutoPatch.write_process_value at h
  rcases hp : AddonUtils.pack_value v vt with e | packed
  · simp [hp] at h
  · simp only [hp, Bool.false_eq_true, if_false] at h
    have h2 : AutoPatch.write_attempt ctx a v vt rb dry
        { address := a, label := AddonUtils.format_address_label a df, value := v,
          value_type := vt, dry_run := dry, success := false, verified := false,
          error := none } packed st = (r, ctx', st') := by
      injection h
    have hst : st' = (AutoPatch.write_attempt ctx a v vt rb dry
        { address := a, label := AddonUtils.format_address_label a df, value := v,
          value_type := vt, dry_run := dry, success := false, verified := false,
          error := none } packed st).2.2 := by rw [h2]
    rw [hst]
    exact write_attempt_state ctx a v vt rb dry _ packed st

/-- The batch loop with `require_confirmation=False` never prompts and
never changes the consent flag. -/
theorem auto_apply_patch_loop_no_confirm (v : PyNum) (vt : ValueType)
    (rb : Option (ScanContext → Nat → Nat → List Nat)) (df : Option (Nat → String))
    (dry : Bool) :
    ∀ (addrs : List Nat) (ctx : ScanContext) (st : AutoPatch.PatchState)
      (acc : List AutoPatch.WriteResult) (res : List AutoPatch.WriteResult)
      (ctx' : ScanContext) (st' : AutoPatch.PatchState),
      AutoPatch.auto_apply_patch_loop v vt rb df dry false addrs ctx st acc
        = .ok (res, ctx', st') →
      st'.prompts = st.prompts ∧ st'.granted = st.granted := by
  intro addrs
  induction addrs with
  | nil =>
    intro ctx st acc res ctx' st' h
    unfold AutoPatch.auto_apply_patch_loop at h
    cases h
    exact ⟨rfl, rfl⟩
  | cons a rest ih =>
    intro ctx st acc res ctx' st' h
    unfold AutoPatch.auto_apply_patch_loop at h
    rcases hw : AutoPatch.write_process_value ctx a v vt rb df dry (false && !dry) st
      with e | ⟨r1, ctx1, st1⟩
    · rw [hw] at h; cases h
    · rw [hw] at h
      have h1 := write_process_value_no_confirm ctx a v vt rb df dry st r1 ctx1 st1
        (by rw [← hw]; rfl)
      have h2 := ih ctx1 st1 (acc ++ [r1]) res ctx' st' h
      exact ⟨h2.1.trans h1.1, h2.2.trans h1.2⟩

/-- The watch loop with `require_confirmation=False` never prompts and
never changes the consent flag. -/
theorem run_watch_patch_loop_no_confirm (addrs : List Nat) (v : PyNum) (vt : ValueType)
    (rb : Option (ScanContext → Nat → Nat → List Nat)) (df : Option (Nat → String))
    (dry : Bool) :
    ∀ (iters : Nat) (ctx : ScanContext) (st : AutoPatch.PatchState) (ctx' : ScanContext)
      (st' : AutoPatch.PatchState),
      AutoPatch.run_watch_patch_loop ctx addrs v vt rb df dry false iters st
        = .ok (ctx', st') →
      st'.prompts = st.prompts ∧ st'.granted = st.granted := by
  intro iters
  induction iters with
  | zero =>
    intro ctx st ctx' st' h
    unfold AutoPatch.run_watch_patch_loop at h
    cases h
    exact ⟨rfl, rfl⟩
  | succ n ih =>
    intro ctx st ctx' st' h
    unfold AutoPatch.run_watch_patch_loop at h
    rcases hb : AutoPatch.auto_apply_patch ctx addrs v vt rb df dry false st
      with e | ⟨res1, ctx1, st1⟩
    · rw [hb] at h; cases h
    · rw [hb] at h
      have h1 := auto_apply_patch_loop_no_confirm v vt rb df dry addrs ctx st [] res1 ctx1 st1 hb
      have h2 := ih ctx1 st1 ctx' st' h
      exact ⟨h2.1.trans h1.1, h2.2.trans h1.2⟩

/-- A dry-run batch succeeds (when the value packs), leaves the context
(and with it all mock memory) untouched, and changes nothing in the state
but the log. -/
theorem auto_apply_patch_loop_dry (v : PyNum) (vt : ValueType)
    (rb : Option (ScanContext → Nat → Nat → List Nat)) (df : Option (Nat → String))
    (rc : Bool) (hpack : (AddonUtils.pack_value v vt).isOk = true) :
    ∀ (addrs : List Nat) (ctx : ScanContext) (st : AutoPatch.PatchState)
      (acc : List AutoPatch.WriteResult),
      ∃ res st',
        AutoPatch.auto_apply_patch_loop v vt rb df true rc addrs ctx st acc
          = .ok (res, ctx, st')
        ∧ st'.granted = st.granted ∧ st'.prompts = st.prompts
        ∧ st'.nativeMem = st.nativeMem := by
  intro addrs
  induction addrs with
  | nil =>
    intro ctx st acc
    exact ⟨acc, st, rfl, rfl, rfl, rfl⟩
  | cons a rest ih =>
    intro ctx st acc
    rcases hp : AddonUtils.pack_value v vt with e | packed
    · rw [hp] at hpack; simp [Except.isOk, Except.toBool] at hpack
    · have hw : AutoPatch.write_process_value ctx a v vt rb df true (rc && !true) st
          = .ok ({ address := a, label := AddonUtils.format_address_label a df, value := v,
                   value_type := vt, dry_run := true, success := true, verified := false,
                   error := none }, ctx,
                 AutoPatch.addLog st
                   { address := a, label := AddonUtils.format_address_label a df, value := v,
                     value_type := vt, dry_run := true, success := true, verified := false,
                     error := none } "dry_run" none) := by
        unfold AutoPatch.write_process_value
        simp [hp, AutoPatch.write_attempt]
      obtain ⟨res, st', heq, hg, hpr, hn⟩ := ih ctx
        (AutoPatch.addLog st
          { address := a, label := AddonUtils.format_address_label a df, value := v,
            value_type := vt, dry_run := true, success := true, verified := false,
            error := none } "dry_run" none)
        (acc ++ [{ address := a, label := AddonUtils.format_address_label a df, value := v,
                   value_type := vt, dry_run := true, success := true, verified := false,
                   error := none }])
      refine ⟨res, st', ?_, hg, hpr, hn⟩
      unfold AutoPatch.auto_apply_patch_loop
      rw [hw]
      exact heq

/-- In a dry-run batch the caller's `require_confirmation` argument is
irrelevant: every per-address write receives `require_confirmation and not
dry_run = False`. -/
theorem auto_apply_patch_loop_dry_rc_irrelevant (v : PyNum) (vt : ValueType)
    (rb : Option (ScanContext → Nat → Nat → List Nat)) (df : Option (Nat → String))
    (rc : Bool) :
    ∀ (addrs : List Nat) (ctx : ScanContext) (st : AutoPatch.PatchState)
      (acc : List AutoPatch.WriteResult),
      AutoPatch.auto_apply_patch_loop v vt rb df true rc addrs ctx st acc
        = AutoPatch.auto_apply_patch_loop v vt rb df true false addrs ctx st acc := by
  intro addrs
  induction addrs with
  | nil => intro ctx st acc; rfl
  | cons a rest ih =>
    intro ctx st acc
    unfold AutoPatch.auto_apply_patch_loop
    have hb : (rc && !true) = (false && !true) := by simp
    rw [hb]
    rcases hw : AutoPatch.write_process_value ctx a v vt rb df true (false && !true) st
      with e | ⟨r1, ctx1, st1⟩
    · rfl
    · exact ih ctx1 st1 (acc ++ [r1])

/-- A dry-run watch loop succeeds (when the value packs) and leaves the
context, the consent flag, the prompt queue and the native memory
untouched. -/
theorem run_watch_patch_loop_dry (addrs : List Nat) (v : PyNum) (vt : ValueType)
    (rb : Option (ScanContext → Nat → Nat → List Nat)) (df : Option (Nat → String))
    (hpack : (AddonUtils.pack_value v vt).isOk = true) :
    ∀ (iters : Nat) (ctx : ScanContext) (st : AutoPatch.PatchState),
      ∃ st',
        AutoPatch.run_watch_patch_loop ctx addrs v vt rb df true false iters st
          = .ok (ctx, st')
        ∧ st'.granted = st.granted ∧ st'.prompts = st.prompts
        ∧ st'.nativeMem = st.nativeMem := by
  intro iters
  induction iters with
  | zero => intro ctx st; exact ⟨st, rfl, rfl, rfl, rfl⟩
  | succ n ih =>
    intro ctx st
    obtain ⟨res, st1, hb, hg1, hp1, hn1⟩ :=
      auto_apply_patch_loop_dry v vt rb df false hpack addrs ctx st []
    obtain ⟨st', hrest, hg2, hp2, hn2⟩ := ih ctx st1
    refine ⟨st', ?_, hg2.trans hg1, hp2.trans hp1, hn2.trans hn1⟩
    unfold AutoPatch.run_watch_patch_loop
    rw [show AutoPatch.auto_apply_patch ctx addrs v vt rb df true false st
        = .ok (res, ctx, st1) from hb]
    exact hrest

/-- The post-gate tail of `execute_autopatch` never prompts and never
changes the consent flag: both the batch and the watch loop receive
`require_confirmation=False`. -/
theorem execute_autopatch_run_no_confirm (ctx : ScanContext) (addresses : List Nat)
    (pv : PyNum) (pt : ValueType) (df2 : Option (Nat → String))
    (rf : ScanContext → Nat → Nat → List Nat) (dry : Bool) (wi : Q) (wit : Nat)
    (st : AutoPatch.PatchState) (o : PatchRunner.AutopatchOutcome) (ctx' : ScanContext)
    (st' : AutoPatch.PatchState)
    (h : PatchRunner.execute_autopatch_run ctx addresses pv pt df2 rf dry wi wit st
      = .ok (o, ctx', st')) :
    st'.prompts = st.prompts ∧ st'.granted = st.granted := by
  unfold PatchRunner.execute_autopatch_run at h
  rcases hb : AutoPatch.auto_apply_patch ctx addresses pv pt (some rf) df2 dry false st
    with e | ⟨res, ctx2, st2⟩ <;> simp only [hb] at h
  · cases h
  · have h2 := auto_apply_patch_loop_no_confirm pv pt (some rf) df2 dry addresses ctx st []
      res ctx2 st2 hb
    split at h
    · rcases hwl : AutoPatch.run_watch_patch_loop ctx2 addresses pv pt (some rf) df2 dry
          false wit st2 with e | ⟨ctx3, st3⟩ <;> simp only [hwl] at h
      · cases h
      · have h3 := run_watch_patch_loop_no_confirm addresses pv pt (some rf) df2 dry wit
          ctx2 st2 ctx3 st3 hwl
        cases h
        exact ⟨h3.1.trans h2.1, h3.2.trans h2.2⟩
    · cases h
      exact h2

/-! ## Claim C10 — dry-run batches never require the consent phrase -/

/-- C10: a dry-run batch via `auto_apply_patch` passes `require_confirmation
and not dry_run = False` to every per-address write, so the caller's
`require_confirmation` argument is irrelevant to the entire outcome; and
`execute_autopatch` always invokes the batch (and watch loop) with
`require_confirmation=False`, so that when its resolved mode is dry-run it
finishes without consuming any prompt or changing the consent flag. -/
theorem c10_dry_run_skips_confirmation
    (v : PyNum) (vt : ValueType) (rb : Option (ScanContext → Nat → Nat → List Nat))
    (df : Option (Nat → String)) (rc : Bool) (addrs : List Nat) (bctx : ScanContext)
    (bst : AutoPatch.PatchState)
    (ctx : ScanContext) (addresses : List Nat) (args : PatchRunner.ScanArgs)
    (vt2 : ValueType) (disc : Snap) (df2 : Option (Nat → String))
    (rf : ScanContext → Nat → Nat → List Nat) (config : PatchRunner.AddonConfig)
    (wit : Nat) (st : AutoPatch.PatchState) (o : PatchRunner.AutopatchOutcome)
    (ctx' : ScanContext) (st' : AutoPatch.PatchState)
    (hdry : args.addon_dry_run.getD config.dry_run = true)
    (hex : PatchRunner.execute_autopatch ctx addresses args vt2 disc df2 rf config wit st
      = .ok (o, ctx', st')) :
    AutoPatch.auto_apply_patch bctx addrs v vt rb df true rc bst
      = AutoPatch.auto_apply_patch bctx addrs v vt rb df true false bst
    ∧ st'.prompts = st.prompts ∧ st'.granted = st.granted := by
  refine ⟨auto_apply_patch_loop_dry_rc_irrelevant v vt rb df rc addrs bctx bst [], ?_⟩
  unfold PatchRunner.execute_autopatch at hex
  rw [hdry] at hex
  simp only [Bool.not_true, Bool.false_eq_true, if_false] at hex
  split at hex
  · cases hex; exact ⟨rfl, rfl⟩
  · split at hex
    · cases hex; exact ⟨rfl, rfl⟩
    · split at hex
      · cases hex; exact ⟨rfl, rfl⟩
      · split at hex
        · cases hex
        · split at hex
          · cases hex; exact ⟨rfl, rfl⟩
          · exact execute_autopatch_run_no_confirm _ _ _ _ _ _ _ _ _ _ _ _ _ hex

/-! ## Claim C5 — the auto-patch threshold gate -/

/-- C5 (amended): with the other gates satisfied (a patch value resolves,
the resolved type is an addon type, the scan was dynamic, and the resolved
mode is dry-run), `execute_autopatch` reaches the batch write iff
`0 < n ≤ max(1, t)` where `t` is the configured threshold; otherwise it
stops before any write with context and state untouched. -/
theorem c5_threshold_gate (ctx : ScanContext) (addresses : List Nat)
    (args : PatchRunner.ScanArgs) (vt : ValueType) (disc : Snap)
    (df : Option (Nat → String)) (rf : ScanContext → Nat → Nat → List Nat)
    (config : PatchRunner.AddonConfig) (wit : Nat) (st : AutoPatch.PatchState)
    (pv : PyNum)
    (hv : PatchRunner.resolve_patch_value args.patch_value config disc = some pv)
    (ht : AddonUtils.isAddonType (PatchRunner.resolve_patch_type args.patch_type config vt)
      = true)
    (hdyn : args.dynamic = true)
    (hdry : args.addon_dry_run.getD config.dry_run = true)
    (hpack : (AddonUtils.pack_value pv
      (PatchRunner.resolve_patch_type args.patch_type config vt)).isOk = true) :
    ((0 < addresses.length
        ∧ (addresses.length : Int) ≤ max 1 (args.auto_threshold.getD config.auto_threshold)) →
      ∃ res ctx' st' w,
        PatchRunner.execute_autopatch ctx addresses args vt disc df rf config wit st
          = .ok (.ran res w, ctx', st'))
    ∧ (¬(0 < addresses.length
        ∧ (addresses.length : Int) ≤ max 1 (args.auto_threshold.getD config.auto_threshold)) →
      ∃ o, PatchRunner.execute_autopatch ctx addresses args vt disc df rf config wit st
          = .ok (o, ctx, st) ∧ o.isRan = false) := by
  constructor
  · intro hgate
    have hne : addresses.isEmpty = false := by
      cases addresses with
      | nil => simp at hgate
      | cons a rest => rfl
    have hs : PatchRunner.should_auto_patch addresses
        (args.auto_threshold.getD config.auto_threshold) = true := by
      unfold PatchRunner.should_auto_patch
      exact decide_eq_true hgate
    unfold PatchRunner.execute_autopatch
    simp only [hne, hs, hv, hdyn, hdry, Bool.not_true, Bool.false_eq_true, Bool.true_eq_false,
      if_false, if_true, AddonUtils.ensure_value_type, ht]
    obtain ⟨res, st2, hb, _, _, _⟩ := auto_apply_patch_loop_dry pv
      (PatchRunner.resolve_patch_type args.patch_type config vt) (some rf) df false hpack
      addresses ctx st []
    by_cases hwc : Q.lt ⟨0, 1⟩ (args.enforce_interval.getD config.enforce_interval) = true
    · obtain ⟨st3, hwl, _, _, _⟩ := run_watch_patch_loop_dry addresses pv
        (PatchRunner.resolve_patch_type args.patch_type config vt) (some rf) df hpack
        wit ctx st2
      refine ⟨res, ctx, st3, true, ?_⟩
      unfold PatchRunner.execute_autopatch_run
      simp only [AutoPatch.auto_apply_patch, hb, hwc, if_true, hwl]
    · refine ⟨res, ctx, st2, false, ?_⟩
      unfold PatchRunner.execute_autopatch_run
      simp only [AutoPatch.auto_apply_patch, hb, eq_false_of_ne_true hwc, Bool.false_eq_true,
        if_false]
  · intro hgate
    by_cases hne : addresses.isEmpty
    · refine ⟨.noAddresses, ?_, rfl⟩
      unfold PatchRunner.execute_autopatch
      rw [hne]
      rfl
    · have hs : PatchRunner.should_auto_patch addresses
          (args.auto_threshold.getD config.auto_threshold) = false := by
        unfold PatchRunner.should_auto_patch
        exact decide_eq_false hgate
      refine ⟨.thresholdBlocked (args.auto_threshold.getD config.auto_threshold), ?_, rfl⟩
      unfold PatchRunner.execute_autopatch
      simp only [eq_false_of_ne_true hne, hs, Bool.not_true, Bool.not_false,
        Bool.false_eq_true, if_false, if_true]

/-- A minimal mock context for write-gate scenarios. -/
def tinyCtx : ScanContext :=
  { pid := 1, name := "tiny", pointer_size := 8, mock := true,
    mock_regions := [{ base_address := 0x1000, size := 0x20 }],
    mock_data := fun _ _ => 0 }

/-- CLI arguments requesting a dry-run dynamic autopatch of `int32 5` with
the given threshold. -/
def dryRunArgs (t : Option Int) : PatchRunner.ScanArgs :=
  { patch_value := some (.pyInt 5), patch_type := some .int32, auto_threshold := t,
    addon_dry_run := some true, dynamic := true }

/-- C5 counterexample: with `auto_threshold = 0` and one candidate the
claim's gate `0 < n ≤ t` is false, yet the batch write proceeds — the code
gates on `max(1, threshold)`, not on the raw threshold. -/
theorem c5_counterexample :
    (PatchRunner.execute_autopatch tinyCtx [0x1000] (dryRunArgs (some 0)) .int32 [] none
        (fun _ _ _ => []) {} 0 {}).map (fun x => x.1.isRan) = .ok true
    ∧ ¬(0 < ([0x1000] : List Nat).length ∧ (([0x1000] : List Nat).length : Int) ≤ 0) := by
  constructor
  · decide
  · decide

/-- C5 witness: the claim's own scenario — `auto_threshold = 3` and five
candidates — stops before the batch (context and state returned untouched
by `c5_threshold_gate`), and a one-candidate run under the same threshold
reaches the batch. -/
theorem c5_witness :
    (PatchRunner.execute_autopatch tinyCtx [0x1000, 0x1004, 0x1008, 0x100C, 0x1010]
        (dryRunArgs (some 3)) .int32 [] none (fun _ _ _ => []) {} 0 {}).map
      (fun x => x.1.isRan) = .ok false
    ∧ (PatchRunner.execute_autopatch tinyCtx [0x1000] (dryRunArgs (some 3)) .int32 [] none
        (fun _ _ _ => []) {} 0 {}).map (fun x => x.1.isRan) = .ok true := by
  constructor
  · obtain ⟨o, heq, hro⟩ := (c5_threshold_gate tinyCtx [0x1000, 0x1004, 0x1008, 0x100C, 0x1010]
      (dryRunArgs (some 3)) .int32 [] none (fun _ _ _ => []) {} 0 {} (.pyInt 5)
      rfl (by decide) rfl rfl (by decide)).2 (by decide)
    rw [heq]
    simp [Except.map, hro]
  · obtain ⟨res, ctx', st', w, heq⟩ := (c5_threshold_gate tinyCtx [0x1000]
      (dryRunArgs (some 3)) .int32 [] none (fun _ _ _ => []) {} 0 {} (.pyInt 5)
      rfl (by decide) rfl rfl (by decide)).1 (by decide)
    rw [heq]
    simp [Except.map, PatchRunner.AutopatchOutcome.isRan]

/-- C10 witness: with one concrete address the dry-run batch is literally
independent of the caller's `require_confirmation` flag, and a concrete
dry-run `execute_autopatch` finishes with the prompt queue and consent flag
it started with (even though an unconsumed answer is queued). -/
theorem c10_witness :
    AutoPatch.auto_apply_patch tinyCtx [0x1000] (.pyInt 5) .int32 none none true true
        { prompts := ["YES I OWN THIS COPY"] }
      = AutoPatch.auto_apply_patch tinyCtx [0x1000] (.pyInt 5) .int32 none none true false
        { prompts := ["YES I OWN THIS COPY"] }
    ∧ (PatchRunner.execute_autopatch tinyCtx [0x1000] (dryRunArgs (some 3)) .int32 [] none
        (fun _ _ _ => []) {} 0 { prompts := ["YES I OWN THIS COPY"] }).map
      (fun x => (x.2.2.prompts, x.2.2.granted)) = .ok (["YES I OWN THIS COPY"], false) := by
  obtain ⟨o, c, s, hex⟩ : ∃ o c s,
      PatchRunner.execute_autopatch tinyCtx [0x1000] (dryRunArgs (some 3)) .int32 [] none
        (fun _ _ _ => []) {} 0 { prompts := ["YES I OWN THIS COPY"] } = .ok (o, c, s) :=
    ⟨_, _, _, rfl⟩
  have h := c10_dry_run_skips_confirmation (.pyInt 5) .int32 none none true [0x1000] tinyCtx
    { prompts := ["YES I OWN THIS COPY"] } tinyCtx [0x1000] (dryRunArgs (some 3)) .int32 []
    none (fun _ _ _ => []) {} 0 { prompts := ["YES I OWN THIS COPY"] } o c s rfl hex
  refine ⟨h.1, ?_⟩
  rw [hex]
  simp [Except.map, h.2.1, h.2.2]

/-! ## Claim C6 — writes without recorded confirmation are rejected -/

/-- C6: a non-dry-run write on the native (non-mock) path with
confirmation required, no consent recorded and a prompt answer that is not
the phrase performs no write: it returns `success=false` with error
`confirmation_missing`, appends exactly one log line with `action=skip,
reason=confirmation_missing`, grants nothing, and leaves the context and
the native memory untouched. -/
theorem c6_confirmation_gate (ctx : ScanContext) (addr : Nat) (value : PyNum)
    (vt : ValueType) (rb : Option (ScanContext → Nat → Nat → List Nat))
    (df : Option (Nat → String)) (st : AutoPatch.PatchState)
    (hmock : ctx.mock = false)
    (hgr : st.granted = false)
    (hph : AutoPatch.pyStrip (st.prompts.headD "") ≠ AutoPatch.CONFIRMATION_PHRASE)
    (hpack : (AddonUtils.pack_value value vt).isOk = true) :
    ∃ r st',
      AutoPatch.write_process_value ctx addr value vt rb df false true st = .ok (r, ctx, st')
      ∧ r.success = false
      ∧ r.error = some "confirmation_missing"
      ∧ st'.granted = false
      ∧ st'.nativeMem = st.nativeMem
      ∧ st'.log = st.log ++ [AutoPatch.mkLogEntry r "skip" (some "confirmation_missing")] := by
  rcases hp : AddonUtils.pack_value value vt with e | packed
  · rw [hp] at hpack; simp [Except.isOk, Except.toBool] at hpack
  · have hc : AutoPatch.require_write_confirmation st
        = (false, { st with prompts := st.prompts.tail }) := by
      unfold AutoPatch.require_write_confirmation
      rw [hgr]
      simp only [Bool.false_eq_true, if_false]
      rw [if_neg hph]
    refine ⟨{ address := addr, label := AddonUtils.format_address_label addr df,
              value := value, value_type := vt, dry_run := false, success := false,
              verified := false, error := some "confirmation_missing" },
            AutoPatch.addLog { st with prompts := st.prompts.tail }
              { address := addr, label := AddonUtils.format_address_label addr df,
                value := value, value_type := vt, dry_run := false, success := false,
                verified := false, error := some "confirmation_missing" }
              "skip" (some "confirmation_missing"),
            ?_, rfl, rfl, hgr, rfl, rfl⟩
    unfold AutoPatch.write_process_value
    rw [hp, hc]
    rfl

/-- A native (non-mock) context with an open handle. -/
def nativeCtx : ScanContext :=
  { pid := 2, name := "native", pointer_size := 8, handle := some 1 }

/-- C6 witness: a live write with confirmation required, no consent
recorded and the answer `"no"` queued, fails with `confirmation_missing`
and grants nothing. -/
theorem c6_witness :
    (AutoPatch.write_process_value nativeCtx 0x1000 (.pyInt 7) .int32 none none false true
        { prompts := ["no"] }).map
      (fun x => (x.1.success, x.1.error, x.2.2.granted))
      = .ok (false, some "confirmation_missing", false) := by
  obtain ⟨r, st', heq, hs, he, hg, _, _⟩ := c6_confirmation_gate nativeCtx 0x1000 (.pyInt 7)
    .int32 none none { prompts := ["no"] } rfl rfl (by decide) (by decide)
  rw [heq]
  simp [Except.map, hs, he, hg]

/-! ## Claim C7 — write verification tolerance -/

/-- C7 (amended): for every successful non-dry-run mock write with a read
callback, `verified` is true iff the read-back value differs from the
written value by strictly less than `1e-4` — one fixed tolerance from line
108 of `auto_patch.py`, regardless of the value type. -/
theorem c7_verified_uniform_tolerance (ctx : ScanContext) (addr : Nat) (value : PyNum)
    (vt : ValueType) (cb : ScanContext → Nat → Nat → List Nat)
    (df : Option (Nat → String)) (st : AutoPatch.PatchState)
    (hmock : ctx.mock = true)
    (hpack : (AddonUtils.pack_value value vt).isOk = true)
    (hw : ∀ packed, AddonUtils.pack_value value vt = .ok packed →
      (AutoPatch.write_mock_memory ctx addr packed).isOk = true)
    (hread : ∀ ctx2, (AddonUtils.unpack_valueE (cb ctx2 addr vt.size) vt).isOk = true) :
    ∃ r ctx' st' vr,
      AutoPatch.write_process_value ctx addr value vt (some cb) df false false st
        = .ok (r, ctx', st')
      ∧ AddonUtils.read_value ctx' addr vt cb = .ok vr
      ∧ r.success = true
      ∧ r.verified = Q.lt ((vr.sub value.toQ).abs) ⟨1, 10000⟩ := by
  rcases hp : AddonUtils.pack_value value vt with e | packed
  · rw [hp] at hpack; simp [Except.isOk, Except.toBool] at hpack
  · have hw' := hw packed hp
    rcases hwm : AutoPatch.write_mock_memory ctx addr packed with e | ctx'
    · rw [hwm] at hw'; simp [Except.isOk, Except.toBool] at hw'
    · have hr := hread ctx'
      rcases hrc : AddonUtils.unpack_valueE (cb ctx' addr vt.size) vt with e | vr
      · rw [hrc] at hr; simp [Except.isOk, Except.toBool] at hr
      · have hrv : AddonUtils.read_value ctx' addr vt cb = .ok vr := by
          unfold AddonUtils.read_value; exact hrc
        refine ⟨{ address := addr, label := AddonUtils.format_address_label addr df,
                  value := value, value_type := vt, dry_run := false, success := true,
                  verified := Q.lt ((vr.sub value.toQ).abs) ⟨1, 10000⟩, error := none },
                ctx',
                AutoPatch.addLog st
                  { address := addr, label := AddonUtils.format_address_label addr df,
                    value := value, value_type := vt, dry_run := false, success := true,
                    verified := Q.lt ((vr.sub value.toQ).abs) ⟨1, 10000⟩, error := none }
                  "write" none,
                vr, ?_, hrv, rfl, rfl⟩
        unfold AutoPatch.write_process_value AutoPatch.write_attempt
        rw [hp]
        simp [hmock, hwm, hrv, Except.map]

/-- C7 counterexample: a successful mock write of the float64 value `1.0`
whose read-back decodes to `1 + 2⁻²⁰` (≈ 9.5e-7 away) is reported
`verified=true` by the code (`|diff| < 1e-4`), although the claim's
float64 tolerance `1e-9` requires `verified=false`. -/
theorem c7_counterexample :
    (AutoPatch.write_process_value tinyCtx 0x1000 (.pyFloat ⟨1, 1⟩) .double
        (some (fun _ _ _ => [0, 0, 0, 0, 1, 0, 0xF0, 0x3F])) none false false
        {}).map (fun x => (x.1.success, x.1.verified)) = .ok (true, true)
    ∧ (AddonUtils.unpack_valueE [0, 0, 0, 0, 1, 0, 0xF0, 0x3F] .double).map
        (fun vr => ((vr.sub (Q.ofInt 1)).abs).le ⟨1, 1000000000⟩) = .ok false := by
  constructor
  · decide
  · decide

/-- C7 witness: writing `int32 5` with a read callback returning the bytes
of `5` verifies (read-back equals the written value, difference `0 <
1e-4`). -/
theorem c7_witness :
    (AutoPatch.write_process_value tinyCtx 0x1000 (.pyInt 5) .int32
        (some (fun _ _ _ => [5, 0, 0, 0])) none false false {}).map
      (fun x => (x.1.success, x.1.verified)) = .ok (true, true) := by
  obtain ⟨r, ctx', st', vr, heq, hrv, hs, hv⟩ := c7_verified_uniform_tolerance tinyCtx 0x1000
    (.pyInt 5) .int32 (fun _ _ _ => [5, 0, 0, 0]) none {} rfl (by decide)
    (fun packed hp => by
      have h1 : (Except.ok [5, 0, 0, 0] : Except String (List Nat)) = .ok packed :=
        (show AddonUtils.pack_value (.pyInt 5) .int32 = .ok [5, 0, 0, 0] by decide).symm.trans hp
      injection h1 with h2
      rw [← h2]
      decide)
    (fun _ => rfl)
  have h5 : (Except.ok (⟨5, 1⟩ : Q) : Except String Q) = .ok vr := by
    rw [← hrv]
    rfl
  injection h5 with h5'
  rw [heq]
  simp only [Except.map, hs]
  rw [hv, ← h5']
  rfl

/-! ## Claim C3 — candidate-set monotonicity in the dynamic loop -/

/-- C3 (amended): as long as a candidate set exists, one dynamic step never
grows it — the comparisons are drawn from the candidate set and the trend
filter only removes entries.  (After a step that empties the set the
controller drops it and restarts from full snapshots, where the count may
grow; that is the corrected part of the claim.) -/
theorem c3_candidates_nonincreasing (value_type : ValueType)
    (st : ProcessInspector.DynState) (inp : ProcessInspector.StepInput) (c : Snap)
    (hc : st.cands = some c) (hf : st.finished = false) :
    ProcessInspector.candCount (ProcessInspector.run_dynamic_step value_type st inp)
      ≤ c.length := by
  unfold ProcessInspector.run_dynamic_step
  simp only [hf, hc, Bool.false_eq_true, if_false]
  split
  · simp only [ProcessInspector.candCount, hc]
    omega
  · split
    · simp only [ProcessInspector.candCount]
      omega
    · split
      · simp only [ProcessInspector.candCount, ProcessInspector.filter_candidates]
        exact le_trans (List.length_filterMap_le _ _) (List.length_filterMap_le _ _)
      · split
        · simp only [ProcessInspector.candCount]
          omega
        · simp only [ProcessInspector.candCount, ProcessInspector.filter_candidates]
          exact le_trans (List.length_filterMap_le _ _) (List.length_filterMap_le _ _)

/-- Mock context holding a single `int32` value `v` at `0x1000`, for
dynamic-scan runs. -/
def c3ctx (v : Nat) : ScanContext :=
  { pid := 3, name := "dyn", pointer_size := 8, mock := true,
    mock_regions := [{ base_address := 0x1000, size := 4 }],
    mock_data := fun b =>
      if b = 0x1000 then (fun o => if o = 0 then v else 0) else fun _ => 0 }

/-- Snapshot of the dynamic-scan mock holding value `v`. -/
def c3snap (v : Nat) : Snap :=
  ProcessInspector.take_snapshot (c3ctx v) [{ base_address := 0x1000, size := 4 }] .int32 0x4000

/-- The dynamic-loop states of a concrete two-step session: baseline value
5, an `increase` answer while nothing changed (step 1), then an `increase`
answer after the value became 6 (step 2). -/
def c3trace : List ProcessInspector.DynState :=
  ProcessInspector.run_dynamic_trace .int32
    { regions := [{ base_address := 0x1000, size := 4 }], prev := c3snap 5, cands := none }
    [ { next := c3snap 5, relation := some .increase },
      { next := c3snap 6, relation := some .increase } ]

/-- C3 counterexample: in the session above the candidate count after step
1 is 0 (the filter emptied the set, so the controller dropped it and
restarted), and after the consecutive step 2 it is 1 — the count grew, so
the candidate set is not monotonically non-growing across consecutive
steps.  The snapshots are genuine `take_snapshot` outputs of the mock
memories. -/
theorem c3_counterexample :
    c3trace.map ProcessInspector.candCount = [0, 1]
    ∧ ¬(1 ≤ 0) := by
  constructor
  · decide
  · decide

/-- C3 witness: one concrete non-restart instance of the amended bound —
a live candidate set of size 2 filtered by `increase` keeps at most 2
entries. -/
theorem c3_witness :
    ProcessInspector.candCount (ProcessInspector.run_dynamic_step .int32
      { regions := [{ base_address := 0x1000, size := 4 }], prev := c3snap 5,
        cands := some [(0x1000, .pyInt 5), (0x1004, .pyInt 7)] }
      { next := c3snap 6, relation := some .increase }) ≤ 2 := by
  exact c3_candidates_nonincreasing .int32
    { regions := [{ base_address := 0x1000, size := 4 }], prev := c3snap 5,
      cands := some [(0x1000, .pyInt 5), (0x1004, .pyInt 7)] }
    { next := c3snap 6, relation := some .increase }
    [(0x1000, .pyInt 5), (0x1004, .pyInt 7)] rfl rfl

/-! ## Claim C2 — snapshot key alignment -/

/-- Every value type has a positive byte size. -/
theorem ValueType.size_pos (t : ValueType) : 0 < t.size := by
  cases t <;> decide

/-- A byte slice has the requested length. -/
theorem sliceBytes_length (d : Nat → Nat) : ∀ (n off : Nat), (sliceBytes d off n).length = n := by
  intro n
  induction n with
  | zero => intro off; rfl
  | succ m ih => intro off; simp [sliceBytes, ih]

/-- A successful read returns at most the requested number of bytes (the
Python slice clamps at the end of the backing buffer). -/
theorem read_process_memory_length (ctx : ScanContext) (a sz : Nat) (data : List Nat)
    (h : read_process_memory ctx a sz = .ok data) : data.length ≤ sz := by
  unfold read_process_memory at h
  split at h
  · rcases hf : findRegion ctx.mock_regions a with _ | r <;> rw [hf] at h
    · cases h
    · cases h
      rw [sliceBytes_length]
      exact Nat.min_le_left _ _
  · cases h

/-- The snapshot loop emits nothing once the offset has reached the region
size. -/
theorem snapshot_region_loop_ge (ctx : ScanContext) (r : Region) (vt : ValueType)
    (chunk : Nat) (fuel offset : Nat) (hge : r.size ≤ offset) :
    ProcessInspector.snapshot_region_loop ctx r vt chunk fuel offset = [] := by
  cases fuel with
  | zero => rfl
  | succ f =>
    unfold ProcessInspector.snapshot_region_loop
    rw [if_neg]
    intro hcon
    omega

/-- Key soundness of the snapshot loop: when the value size divides both
the chunk size and the starting offset, every emitted key lies inside the
region at an offset divisible by the value size. -/
theorem snapshot_region_loop_key (ctx : ScanContext) (r : Region) (vt : ValueType)
    (chunk : Nat) (hdvd : vt.size ∣ chunk) :
    ∀ (fuel offset : Nat), vt.size ∣ offset →
      ∀ e ∈ ProcessInspector.snapshot_region_loop ctx r vt chunk fuel offset,
        r.base_address ≤ e.1 ∧ e.1 < r.base_address + r.size
          ∧ (e.1 - r.base_address) % vt.size = 0 := by
  intro fuel
  induction fuel with
  | zero => intro offset _ e he; cases he
  | succ f ih =>
    intro offset hoff e he
    unfold ProcessInspector.snapshot_region_loop at he
    split at he
    case isFalse => cases he
    case isTrue hcond =>
      rw [List.mem_append] at he
      rcases he with he | he
      · -- a member of this chunk's entries
        rcases hrd : read_process_memory ctx (r.base_address + offset)
            (min chunk (r.size - offset)) with err | data <;> rw [hrd] at he
        · cases he
        · have hlen := read_process_memory_length ctx (r.base_address + offset)
            (min chunk (r.size - offset)) data hrd
          rw [List.mem_map] at he
          obtain ⟨k, hk, hek⟩ := he
          rw [List.mem_range] at hk
          have hsz := ValueType.size_pos vt
          have hmd := Nat.mod_add_div data.length vt.size
          have husable : data.length - data.length % vt.size
              = vt.size * (data.length / vt.size) := by omega
          have hkb : k * vt.size + vt.size ≤ data.length - data.length % vt.size := by
            have hq : (data.length - data.length % vt.size) / vt.size
                = data.length / vt.size := by
              rw [husable]
              exact Nat.mul_div_cancel_left _ hsz
            rw [hq] at hk
            calc k * vt.size + vt.size = (k + 1) * vt.size := by ring
              _ ≤ (data.length / vt.size) * vt.size := Nat.mul_le_mul_right _ hk
              _ = vt.size * (data.length / vt.size) := Nat.mul_comm _ _
              _ = data.length - data.length % vt.size := husable.symm
          have he1 : e.1 = r.base_address + offset + k * vt.size := by
            rw [← hek]
          obtain ⟨j, hj⟩ := hoff
          refine ⟨by omega, by omega, ?_⟩
          have : e.1 - r.base_address = offset + k * vt.size := by omega
          rw [this, hj]
          have : vt.size * j + k * vt.size = vt.size * (j + k) := by ring
          rw [this]
          exact Nat.mul_mod_right _ _
      · -- a member of a later chunk
        by_cases hch : chunk ≤ r.size - offset
        · have hmin : min chunk (r.size - offset) = chunk := Nat.min_eq_left hch
          rw [hmin] at he
          exact ih (offset + chunk) (Nat.dvd_add hoff hdvd) e he
        · have hmin : min chunk (r.size - offset) = r.size - offset := by omega
          rw [hmin] at he
          rw [snapshot_region_loop_ge ctx r vt chunk f (offset + (r.size - offset))
            (by omega)] at he
          cases he

/-- A member of `dictInsert m k v` is the inserted pair or a member of
`m`. -/
theorem mem_dictInsert {α : Type} (k : Nat) (v : α) :
    ∀ (m : List (Nat × α)), ∀ e ∈ dictInsert m k v, e = (k, v) ∨ e ∈ m := by
  intro m
  induction m with
  | nil =>
    intro e he
    simp only [dictInsert, List.mem_singleton] at he
    exact Or.inl he
  | cons p rest ih =>
    obtain ⟨k', v'⟩ := p
    intro e he
    simp only [dictInsert] at he
    split at he
    case isTrue hpk =>
      rcases List.mem_cons.mp he with he | he
      · left; rw [he, hpk]
      · right; exact List.mem_cons_of_mem _ he
    case isFalse hpk =>
      rcases List.mem_cons.mp he with he | he
      · right; rw [he]; exact List.mem_cons_self _ _
      · rcases ih e he with h | h
        · exact Or.inl h
        · right; exact List.mem_cons_of_mem _ h

/-- The key of a member of a `dictInsert` fold comes from the accumulator
or from one of the inserted entries. -/
theorem mem_foldl_dictInsert {α : Type} :
    ∀ (entries : List (Nat × α)) (acc : List (Nat × α)) (e : Nat × α),
      e ∈ entries.foldl (fun m p => dictInsert m p.1 p.2) acc →
      e ∈ acc ∨ ∃ p ∈ entries, e.1 = p.1 := by
  intro entries
  induction entries with
  | nil => intro acc e he; exact Or.inl he
  | cons p rest ih =>
    intro acc e he
    rcases ih (dictInsert acc p.1 p.2) e he with h | ⟨q, hq, hk⟩
    · rcases mem_dictInsert p.1 p.2 acc e h with h1 | h1
      · exact Or.inr ⟨p, List.mem_cons_self _ _, by rw [h1]⟩
      · exact Or.inl h1
    · exact Or.inr ⟨q, List.mem_cons_of_mem _ hq, hk⟩

/-- C2 (amended): when the value size divides the chunk size (the default
`0x4000` is a multiple of both 4 and 8), every key of `take_snapshot` lies
inside one of the supplied regions at an offset divisible by the value
size. -/
theorem c2_snapshot_keys_aligned (ctx : ScanContext) (regions : List Region)
    (value_type : ValueType) (chunk_size : Nat)
    (hdvd : value_type.size ∣ chunk_size) :
    ∀ e ∈ ProcessInspector.take_snapshot ctx regions value_type chunk_size,
      ∃ r ∈ regions, r.base_address ≤ e.1 ∧ e.1 < r.base_address + r.size
        ∧ (e.1 - r.base_address) % value_type.size = 0 := by
  have main : ∀ (rs : List Region) (acc : Snap) (e : Nat × PyNum),
      e ∈ rs.foldl (fun acc r =>
        (ProcessInspector.snapshot_region_loop ctx r value_type chunk_size r.size 0).foldl
          (fun m p => dictInsert m p.1 p.2) acc) acc →
      e ∈ acc ∨ ∃ r ∈ rs, r.base_address ≤ e.1 ∧ e.1 < r.base_address + r.size
        ∧ (e.1 - r.base_address) % value_type.size = 0 := by
    intro rs
    induction rs with
    | nil => intro acc e he; exact Or.inl he
    | cons r rest ih =>
      intro acc e he
      rcases ih _ e he with h | ⟨r', hr', hp⟩
      · rcases mem_foldl_dictInsert _ acc e h with h1 | ⟨p, hp, hk⟩
        · exact Or.inl h1
        · have := snapshot_region_loop_key ctx r value_type chunk_size hdvd r.size 0
            (Nat.dvd_zero _) p hp
          exact Or.inr ⟨r, List.mem_cons_self _ _, by rw [hk]; exact this.1,
            by rw [hk]; exact this.2.1, by rw [hk]; exact this.2.2⟩
      · exact Or.inr ⟨r', List.mem_cons_of_mem _ hr', hp⟩
  intro e he
  rcases main regions [] e he with h | h
  · cases h
  · exact h

/-- Mock context with a single 10-byte region of zeros at `0x1000`, for
alignment scenarios. -/
def c2ctx : ScanContext :=
  { pid := 4, name := "align", pointer_size := 8, mock := true,
    mock_regions := [{ base_address := 0x1000, size := 10 }],
    mock_data := fun _ _ => 0 }

/-- C2 counterexample: chunk size 5 is lower-bounded by `size(int32) = 4`
as the claim requires, yet the snapshot contains the key `0x1005`, whose
offset 5 in the only region is not a multiple of 4 — the second chunk
starts at offset 5 and the stride alignment is relative to the chunk
start, not the region base. -/
theorem c2_counterexample :
    (ProcessInspector.take_snapshot c2ctx [{ base_address := 0x1000, size := 10 }] .int32
        5).map Prod.fst = [0x1000, 0x1005]
    ∧ ValueType.int32.size ≤ 5
    ∧ (([{ base_address := 0x1000, size := 10 }] : List Region).all (fun r =>
        !decide (r.base_address ≤ 0x1005 ∧ 0x1005 < r.base_address + r.size
          ∧ (0x1005 - r.base_address) % ValueType.int32.size = 0))) = true := by
  refine ⟨?_, ?_, ?_⟩
  · decide
  · decide
  · decide

/-- C2 witness: with the aligned chunk size 4 on the same region, the key
`0x1004` produced by the snapshot is inside the region at a
size-aligned offset, by `c2_snapshot_keys_aligned`. -/
theorem c2_witness :
    (0x1000 : Nat) ≤ 0x1004 ∧ (0x1004 : Nat) < 0x1000 + 10
      ∧ (0x1004 - 0x1000) % ValueType.int32.size = 0 := by
  obtain ⟨r, hr, h⟩ := c2_snapshot_keys_aligned c2ctx [{ base_address := 0x1000, size := 10 }]
    .int32 4 (by decide) (0x1004, .pyInt 0) (by decide)
  rw [show r = { base_address := 0x1000, size := 10 } from by simpa using hr] at h
  exact h

/-! ## Claim C4 — pointer chain soundness -/

/-- Dropping into a slice shifts its start. -/
theorem sliceBytes_drop (d : Nat → Nat) :
    ∀ (n off i : Nat), (sliceBytes d off n).drop i = sliceBytes d (off + i) (n - i) := by
  intro n
  induction n with
  | zero => intro off i; simp [sliceBytes]
  | succ m ih =>
    intro off i
    cases i with
    | zero => simp [sliceBytes]
    | succ j =>
      simp only [sliceBytes, List.drop_succ_cons, Nat.succ_sub_succ]
      rw [ih (off + 1) j]
      ring_nf

/-- Taking from a slice shortens it. -/
theorem sliceBytes_take (d : Nat → Nat) :
    ∀ (n off i : Nat), (sliceBytes d off n).take i = sliceBytes d off (min i n) := by
  intro n
  induction n with
  | zero => intro off i; simp [sliceBytes]
  | succ m ih =>
    intro off i
    cases i with
    | zero => simp [sliceBytes]
    | succ j =>
      simp only [sliceBytes, List.take_succ_cons]
      rw [ih (off + 1) j]
      have : min (j + 1) (m + 1) = min j m + 1 := by omega
      rw [this]
      rfl

/-- `leBytesNat` has the requested width. -/
theorem leBytesNat_length (n w : Nat) : (leBytesNat n w).length = w := by
  simp [leBytesNat]

/-- A mock read whose address resolves to region `r` returns the slice of
`r`'s buffer, clamped at the region end. -/
theorem read_resolved (ctx : ScanContext) (r : Region) (a len : Nat)
    (hmock : ctx.mock = true) (hf : findRegion ctx.mock_regions a = some r) :
    read_process_memory ctx a len
      = .ok (sliceBytes (ctx.mock_data r.base_address) (a - r.base_address)
          (min len (r.size - (a - r.base_address)))) := by
  unfold read_process_memory
  rw [hmock, hf]
  simp

/-- In a single-region mock context every in-region address resolves to
that region. -/
theorem resolves_single (ctx : ScanContext) (r : Region) (h : ctx.mock_regions = [r]) :
    ∀ a, r.base_address ≤ a → a < r.base_address + r.size →
      findRegion ctx.mock_regions a = some r := by
  intro a h1 h2
  rw [h]
  unfold findRegion
  rw [List.find?_cons_of_pos]
  simp [h1, h2]

/-- Soundness of the reference-scan loop: every reported address holds
exactly the target bytes (reads resolve within the scanned region). -/
theorem find_pointer_references_loop_sound (ctx : ScanContext) (r : Region)
    (tb : List Nat) (ps : Nat)
    (hmock : ctx.mock = true)
    (hres : ∀ a, r.base_address ≤ a → a < r.base_address + r.size →
      findRegion ctx.mock_regions a = some r)
    (hlen : tb.length = ps) :
    ∀ (fuel offset : Nat),
      ∀ a ∈ ProcessInspector.find_pointer_references_loop ctx r tb ps fuel offset,
        read_process_memory ctx a ps = .ok tb := by
  intro fuel
  induction fuel with
  | zero => intro offset a ha; cases ha
  | succ f ih =>
    intro offset a ha
    unfold ProcessInspector.find_pointer_references_loop at ha
    split at ha
    case isFalse => cases ha
    case isTrue hcond =>
      rw [List.mem_append] at ha
      rcases ha with ha | ha
      · have hin : offset < r.size := by omega
        have hfr := hres (r.base_address + offset) (by omega) (by omega)
        have hrd := read_resolved ctx r (r.base_address + offset)
          (min 0x4000 (r.size - offset)) hmock hfr
        have hoffeq : r.base_address + offset - r.base_address = offset := by omega
        rw [hoffeq] at hrd
        have hminr : min (min 0x4000 (r.size - offset)) (r.size - offset)
            = min 0x4000 (r.size - offset) := by omega
        rw [hminr] at hrd
        rw [hrd] at ha
        rw [List.mem_filterMap] at ha
        obtain ⟨k, hk, hak⟩ := ha
        rw [List.mem_range] at hk
        rw [sliceBytes_length] at hk
        split at hak
        case isFalse => cases hak
        case isTrue hmatch =>
          have ha' : a = r.base_address + offset + k * ps := by
            injection hak with h
            omega
          have hps : 0 < ps := hcond.2
          have hkps : k * ps + ps ≤ min 0x4000 (r.size - offset) := by
            have h1 : (k + 1) * ps ≤ min 0x4000 (r.size - offset) / ps * ps :=
              Nat.mul_le_mul_right _ hk
            have h2 : min 0x4000 (r.size - offset) / ps * ps
                ≤ min 0x4000 (r.size - offset) := Nat.div_mul_le_self _ _
            have h3 : (k + 1) * ps = k * ps + ps := by ring
            omega
          have hfra := hres (r.base_address + offset + k * ps) (by omega) (by omega)
          have hrda := read_resolved ctx r (r.base_address + offset + k * ps) ps hmock hfra
          have hoffa : r.base_address + offset + k * ps - r.base_address
              = offset + k * ps := by omega
          rw [hoffa] at hrda
          have hmina : min ps (r.size - (offset + k * ps)) = ps := by omega
          rw [hmina] at hrda
          rw [ha', hrda]
          rw [sliceBytes_drop, sliceBytes_take] at hmatch
          have hmin2 : min ps (min 0x4000 (r.size - offset) - k * ps) = ps := by omega
          rw [hmin2] at hmatch
          rw [hmatch]
      · exact ih (offset + min 0x4000 (r.size - offset)) a ha

/-- Soundness of `find_pointer_references`: every reported address holds
the little-endian bytes of the target. -/
theorem find_pointer_references_sound (ctx : ScanContext) (regions : List Region)
    (target : Nat)
    (hmock : ctx.mock = true)
    (hres : ∀ r ∈ regions, ∀ a, r.base_address ≤ a → a < r.base_address + r.size →
      findRegion ctx.mock_regions a = some r) :
    ∀ a ∈ ProcessInspector.find_pointer_references ctx regions target,
      read_process_memory ctx a ctx.pointer_size
        = .ok (leBytesNat target ctx.pointer_size) := by
  intro a ha
  unfold ProcessInspector.find_pointer_references at ha
  rw [List.mem_flatMap] at ha
  obtain ⟨r, hr, ha⟩ := ha
  exact find_pointer_references_loop_sound ctx r (leBytesNat target ctx.pointer_size)
    ctx.pointer_size hmock (hres r hr) (leBytesNat_length _ _) r.size 0 a ha

/-- Address `a` stores the little-endian bytes of address `b` (one link of
a pointer chain). -/
def pointsTo (ctx : ScanContext) (a b : Nat) : Prop :=
  read_process_memory ctx a ctx.pointer_size = .ok (leBytesNat b ctx.pointer_size)

/-- Invariant of a frontier path for target `t`: it starts at `t`, every
adjacent pair is a pointer link, and it ends at a seed. -/
def pathOK (ctx : ScanContext) (seeds : List Nat) (t : Nat) (p : List Nat) : Prop :=
  p.head? = some t ∧ List.Chain' (pointsTo ctx) p ∧ ∃ s ∈ seeds, p.getLast? = some s

/-- Invariant of the whole frontier. -/
def frontierOK (ctx : ScanContext) (seeds : List Nat) (fr : ProcessInspector.Frontier) :
    Prop :=
  ∀ e ∈ fr, ∀ p ∈ e.2, pathOK ctx seeds e.1 p

/-- The soundness property of an emitted chain (claim C4). -/
def chainOK (ctx : ScanContext) (seeds : List Nat) (p : List Nat) : Prop :=
  2 ≤ p.length ∧ List.Chain' (pointsTo ctx) p ∧ ∃ s ∈ seeds, p.getLast? = some s

/-- A path of a `frontier_add` result is an old path of the same key or
the added path under the added key. -/
theorem mem_frontier_add (ref : Nat) (pth : List Nat) :
    ∀ (fr : List (Nat × List (List Nat))), ∀ e ∈ ProcessInspector.frontier_add fr ref pth,
      ∀ q ∈ e.2, (∃ e' ∈ fr, e'.1 = e.1 ∧ q ∈ e'.2) ∨ (e.1 = ref ∧ q = pth) := by
  intro fr
  induction fr with
  | nil =>
    intro e he q hq
    simp only [ProcessInspector.frontier_add, List.mem_singleton] at he
    rw [he] at hq ⊢
    rw [List.mem_singleton] at hq
    exact Or.inr ⟨rfl, hq⟩
  | cons p rest ih =>
    obtain ⟨k, paths⟩ := p
    intro e he q hq
    simp only [ProcessInspector.frontier_add] at he
    split at he
    case isTrue hk =>
      rcases List.mem_cons.mp he with he | he
      · rw [he] at hq ⊢
        rcases List.mem_append.mp hq with h | h
        · exact Or.inl ⟨(k, paths), List.mem_cons_self _ _, rfl, h⟩
        · rw [List.mem_singleton] at h
          exact Or.inr ⟨hk, h⟩
      · exact Or.inl ⟨e, List.mem_cons_of_mem _ he, rfl, hq⟩
    case isFalse hk =>
      rcases List.mem_cons.mp he with he | he
      · rw [he] at hq ⊢
        exact Or.inl ⟨(k, paths), List.mem_cons_self _ _, rfl, hq⟩
      · rcases ih e he q hq with ⟨e', he', hk', hq'⟩ | h
        · exact Or.inl ⟨e', List.mem_cons_of_mem _ he', hk', hq'⟩
        · exact Or.inr h

/-- Extending a sound path by a sound referrer gives a sound chain and a
sound frontier path. -/
theorem pathOK_extend (ctx : ScanContext) (seeds : List Nat) (t ref : Nat)
    (p : List Nat) (hp : pathOK ctx seeds t p) (href : pointsTo ctx ref t) :
    chainOK ctx seeds (ref :: p) ∧ pathOK ctx seeds ref (ref :: p) := by
  obtain ⟨hh, hch, s, hs, hl⟩ := hp
  cases p with
  | nil => cases hh
  | cons x xs =>
    have hx : x = t := by injection hh
    have hch' : List.Chain' (pointsTo ctx) (ref :: x :: xs) := by
      rw [List.chain'_cons']
      refine ⟨?_, hch⟩
      intro y hy
      have : y = x := by
        simp only [List.head?_cons, Option.mem_def, Option.some.injEq] at hy
        omega
      rw [this, hx]
      exact href
    have hl' : (ref :: x :: xs).getLast? = some s := by
      rw [List.getLast?_cons_cons]
      exact hl
    exact ⟨⟨by simp, hch', s, hs, hl'⟩, ⟨rfl, hch', s, hs, hl'⟩⟩

/-- Soundness of the innermost fold of `trace_depth` (extending every path
of one frontier entry by one referrer). -/
theorem paths_fold_sound (ctx : ScanContext) (seeds : List Nat) (t ref : Nat)
    (href : pointsTo ctx ref t) :
    ∀ (paths : List (List Nat)) (acc : List (List Nat) × ProcessInspector.Frontier),
      (∀ p ∈ paths, pathOK ctx seeds t p) →
      (∀ p ∈ acc.1, chainOK ctx seeds p) → frontierOK ctx seeds acc.2 →
      (∀ p ∈ (paths.foldl (fun acc3 path =>
          (acc3.1 ++ [ref :: path], ProcessInspector.frontier_add acc3.2 ref (ref :: path)))
          acc).1, chainOK ctx seeds p)
      ∧ frontierOK ctx seeds (paths.foldl (fun acc3 path =>
          (acc3.1 ++ [ref :: path], ProcessInspector.frontier_add acc3.2 ref (ref :: path)))
          acc).2 := by
  intro paths
  induction paths with
  | nil => intro acc _ h1 h2; exact ⟨h1, h2⟩
  | cons p rest ih =>
    intro acc hpaths h1 h2
    have hp := hpaths p (List.mem_cons_self _ _)
    obtain ⟨hchain, hpath⟩ := pathOK_extend ctx seeds t ref p hp href
    refine ih (acc.1 ++ [ref :: p], ProcessInspector.frontier_add acc.2 ref (ref :: p))
      (fun q hq => hpaths q (List.mem_cons_of_mem _ hq)) ?_ ?_
    · intro q hq
      rcases List.mem_append.mp hq with h | h
      · exact h1 q h
      · rw [List.mem_singleton] at h
        rw [h]
        exact hchain
    · intro e he q hq
      rcases mem_frontier_add ref (ref :: p) acc.2 e he q hq with ⟨e', he', hk, hq'⟩ | ⟨hk, hq'⟩
      · rw [← hk]
        exact h2 e' he' q hq'
      · rw [hk, hq']
        exact hpath

/-- Soundness of the referrer fold of `trace_depth`. -/
theorem refs_fold_sound (ctx : ScanContext) (seeds : List Nat) (t : Nat)
    (paths : List (List Nat)) (hpaths : ∀ p ∈ paths, pathOK ctx seeds t p) :
    ∀ (refs : List Nat) (acc : List (List Nat) × ProcessInspector.Frontier),
      (∀ a ∈ refs, pointsTo ctx a t) →
      (∀ p ∈ acc.1, chainOK ctx seeds p) → frontierOK ctx seeds acc.2 →
      (∀ p ∈ (refs.foldl (fun acc2 ref => paths.foldl (fun acc3 path =>
          (acc3.1 ++ [ref :: path], ProcessInspector.frontier_add acc3.2 ref (ref :: path)))
          acc2) acc).1, chainOK ctx seeds p)
      ∧ frontierOK ctx seeds (refs.foldl (fun acc2 ref => paths.foldl (fun acc3 path =>
          (acc3.1 ++ [ref :: path], ProcessInspector.frontier_add acc3.2 ref (ref :: path)))
          acc2) acc).2 := by
  intro refs
  induction refs with
  | nil => intro acc _ h1 h2; exact ⟨h1, h2⟩
  | cons a rest ih =>
    intro acc hrefs h1 h2
    obtain ⟨h1', h2'⟩ := paths_fold_sound ctx seeds t a (hrefs a (List.mem_cons_self _ _))
      paths acc hpaths h1 h2
    exact ih _ (fun b hb => hrefs b (List.mem_cons_of_mem _ hb)) h1' h2'

/-- Soundness of one depth iteration of `trace_references`. -/
theorem trace_depth_sound (ctx : ScanContext) (regions : List Region) (seeds : List Nat)
    (hsound : ∀ t a, a ∈ ProcessInspector.find_pointer_references ctx regions t →
      pointsTo ctx a t) :
    ∀ (fr : ProcessInspector.Frontier) (acc : List (List Nat) × ProcessInspector.Frontier),
      frontierOK ctx seeds fr →
      (∀ p ∈ acc.1, chainOK ctx seeds p) → frontierOK ctx seeds acc.2 →
      (∀ p ∈ (fr.foldl (fun acc entry =>
          (ProcessInspector.find_pointer_references ctx regions entry.1).foldl
            (fun acc2 ref => entry.2.foldl (fun acc3 path =>
              (acc3.1 ++ [ref :: path],
               ProcessInspector.frontier_add acc3.2 ref (ref :: path))) acc2) acc) acc).1,
        chainOK ctx seeds p)
      ∧ frontierOK ctx seeds (fr.foldl (fun acc entry =>
          (ProcessInspector.find_pointer_references ctx regions entry.1).foldl
            (fun acc2 ref => entry.2.foldl (fun acc3 path =>
              (acc3.1 ++ [ref :: path],
               ProcessInspector.frontier_add acc3.2 ref (ref :: path))) acc2) acc) acc).2 := by
  intro fr
  induction fr with
  | nil => intro acc _ h1 h2; exact ⟨h1, h2⟩
  | cons entry rest ih =>
    intro acc hfr h1 h2
    obtain ⟨h1', h2'⟩ := refs_fold_sound ctx seeds entry.1 entry.2
      (hfr entry (List.mem_cons_self _ _))
      (ProcessInspector.find_pointer_references ctx regions entry.1) acc
      (fun a ha => hsound entry.1 a ha) h1 h2
    exact ih _ (fun e he => hfr e (List.mem_cons_of_mem _ he)) h1' h2'

/-- Every chain collected by the depth loop from a sound frontier is
sound. -/
theorem trace_loop_sound (ctx : ScanContext) (regions : List Region) (seeds : List Nat)
    (hsound : ∀ t a, a ∈ ProcessInspector.find_pointer_references ctx regions t →
      pointsTo ctx a t) :
    ∀ (fuel : Nat) (fr : ProcessInspector.Frontier), frontierOK ctx seeds fr →
      ∀ p ∈ ProcessInspector.trace_loop ctx regions fr fuel, chainOK ctx seeds p := by
  intro fuel
  induction fuel with
  | zero => intro fr _ p hp; cases hp
  | succ f ih =>
    intro fr hfr p hp
    unfold ProcessInspector.trace_loop at hp
    split at hp
    · cases hp
    · obtain ⟨h1, h2⟩ := trace_depth_sound ctx regions seeds hsound fr ([], [])
        hfr (by intro q hq; cases hq) (by intro e he; cases he)
      rcases List.mem_append.mp hp with h | h
      · exact h1 p h
      · exact ih _ h2 p h

/-- The initial frontier `{s : [[s]]}` is sound. -/
theorem init_frontier_sound (ctx : ScanContext) (seeds : List Nat) :
    frontierOK ctx seeds (seeds.foldl (fun fr a => dictInsert fr a [[a]]) []) := by
  have main : ∀ (l : List Nat) (acc : ProcessInspector.Frontier),
      (∀ x ∈ l, x ∈ seeds) →
      (∀ e ∈ acc, e.2 = [[e.1]] ∧ e.1 ∈ seeds) →
      ∀ e ∈ l.foldl (fun fr a => dictInsert fr a [[a]]) acc, e.2 = [[e.1]] ∧ e.1 ∈ seeds := by
    intro l
    induction l with
    | nil => intro acc _ hacc e he; exact hacc e he
    | cons a rest ih =>
      intro acc hl hacc e he
      refine ih (dictInsert acc a [[a]]) (fun x hx => hl x (List.mem_cons_of_mem _ hx))
        ?_ e he
      intro e' he'
      rcases mem_dictInsert a [[a]] acc e' he' with h | h
      · rw [h]
        exact ⟨rfl, hl a (List.mem_cons_self _ _)⟩
      · exact hacc e' h
  intro e he p hp
  obtain ⟨h2, hseed⟩ := main seeds [] (fun x hx => hx) (by intro e' he'; cases he') e he
  rw [h2] at hp
  rw [List.mem_singleton] at hp
  rw [hp]
  exact ⟨rfl, List.chain'_singleton _, e.1, hseed, rfl⟩

/-- C4: every chain emitted by `trace_references` (reads resolving within
their regions) has length at least 2, ends at a seed, and every adjacent
pair `a_i, a_{i-1}` satisfies: the `pointer_size` bytes stored at `a_i`
are the little-endian bytes of `a_{i-1}`. -/
theorem c4_trace_references_sound (ctx : ScanContext) (regions : List Region)
    (seeds : List Nat) (depth : Nat)
    (hmock : ctx.mock = true)
    (hres : ∀ r ∈ regions, ∀ a, r.base_address ≤ a → a < r.base_address + r.size →
      findRegion ctx.mock_regions a = some r) :
    ∀ chain ∈ ProcessInspector.trace_references ctx regions seeds depth,
      2 ≤ chain.length ∧ List.Chain' (pointsTo ctx) chain
        ∧ ∃ s ∈ seeds, chain.getLast? = some s := by
  intro chain hchain
  exact trace_loop_sound ctx regions seeds
    (fun t a ha => find_pointer_references_sound ctx regions t hmock hres a ha)
    depth _ (init_frontier_sound ctx seeds) chain hchain

/-- Mock context with one 32-byte region at `0x100` holding a pointer to
`0x100` at address `0x110`. -/
def c4ctx : ScanContext :=
  { pid := 5, name := "trace", pointer_size := 8, mock := true,
    mock_regions := [{ base_address := 0x100, size := 32 }],
    mock_data := fun b =>
      if b = 0x100 then (fun o => if o = 0x11 then 1 else 0) else fun _ => 0 }

/-- C4 witness: the concrete chain `[0x110, 0x100]` is emitted for seed
`0x100`, and by `c4_trace_references_sound` it has length ≥ 2, ends at the
seed, and its link reads back the seed's bytes. -/
theorem c4_witness :
    List.Chain' (pointsTo c4ctx) [0x110, 0x100]
    ∧ 2 ≤ ([0x110, 0x100] : List Nat).length
    ∧ ([0x110, 0x100] : List Nat).getLast? = some 0x100 := by
  have hm : [0x110, 0x100]
      ∈ ProcessInspector.trace_references c4ctx c4ctx.mock_regions [0x100] 1 := by decide
  obtain ⟨h1, h2, s, hs, hl⟩ := c4_trace_references_sound c4ctx c4ctx.mock_regions [0x100] 1
    rfl
    (by
      intro r hr
      have hr' : r = { base_address := 0x100, size := 32 } := by simpa [c4ctx] using hr
      rw [hr']
      exact resolves_single c4ctx _ rfl)
    [0x110, 0x100] hm
  refine ⟨h2, h1, ?_⟩
  have hs' : s = 0x100 := by simpa using hs
  rw [hs'] at hl
  exact hl

/-! ## Claim C1 — value-search completeness and the chunk boundary -/

/-- The pattern occurs in the region buffer starting at offset `pos`. -/
def occursAt (d : Nat → Nat) (pos : Nat) (pat : List Nat) : Prop :=
  sliceBytes d pos pat.length = pat

instance (d : Nat → Nat) (pos : Nat) (pat : List Nat) : Decidable (occursAt d pos pat) := by
  unfold occursAt
  infer_instance

/-- Membership in the per-chunk `bytes.find` loop. -/
theorem mem_chunkOccurrences (data pat : List Nat) (i : Nat) :
    i ∈ ProcessInspector.chunkOccurrences data pat ↔
      i < data.length ∧ (data.drop i).take pat.length = pat := by
  unfold ProcessInspector.chunkOccurrences
  rw [List.mem_filter, List.mem_range]
  simp only [decide_eq_true_eq]

/-- Full characterization of the per-region search loop (reads resolving to
the region, fuel covering the remaining bytes): the reported addresses are
exactly the occurrences of the pattern that lie entirely inside one
`0x4000`-byte chunk. -/
theorem mem_search_region_loop (ctx : ScanContext) (r : Region) (pat : List Nat)
    (hmock : ctx.mock = true)
    (hres : ∀ a, r.base_address ≤ a → a < r.base_address + r.size →
      findRegion ctx.mock_regions a = some r)
    (hpat : pat ≠ []) :
    ∀ (fuel offset : Nat), r.size - offset ≤ fuel →
      ∀ a, a ∈ ProcessInspector.search_region_loop ctx r pat fuel offset ↔
        ∃ i, offset ≤ i ∧ i + pat.length ≤ r.size
          ∧ (i - offset) % 0x4000 + pat.length ≤ 0x4000
          ∧ occursAt (ctx.mock_data r.base_address) i pat
          ∧ a = r.base_address + i := by
  have hL : 0 < pat.length := List.length_pos.mpr hpat
  intro fuel
  induction fuel with
  | zero =>
    intro offset hfuel a
    constructor
    · intro h; cases h
    · rintro ⟨i, h1, h2, h3, h4, h5⟩
      omega
  | succ f ih =>
    intro offset hfuel a
    unfold ProcessInspector.search_region_loop
    by_cases hoff : offset < r.size
    case neg =>
      rw [if_neg hoff]
      constructor
      · intro h; cases h
      · rintro ⟨i, h1, h2, h3, h4, h5⟩
        omega
    case pos =>
      rw [if_pos hoff]
      have hfr := hres (r.base_address + offset) (by omega) (by omega)
      have hrd := read_resolved ctx r (r.base_address + offset)
        (min 0x4000 (r.size - offset)) hmock hfr
      have hoffeq : r.base_address + offset - r.base_address = offset := by omega
      rw [hoffeq] at hrd
      have hminr : min (min 0x4000 (r.size - offset)) (r.size - offset)
          = min 0x4000 (r.size - offset) := by omega
      rw [hminr] at hrd
      simp only [hrd, List.mem_append, List.mem_map]
      constructor
      · rintro (⟨j, hj, haj⟩ | hrec)
        · rw [mem_chunkOccurrences] at hj
          obtain ⟨hjlt, hslice⟩ := hj
          rw [sliceBytes_length] at hjlt
          rw [sliceBytes_drop, sliceBytes_take] at hslice
          have hlen2 : (sliceBytes (ctx.mock_data r.base_address) (offset + j)
              (min pat.length (min 0x4000 (r.size - offset) - j))).length = pat.length := by
            rw [hslice]
          rw [sliceBytes_length] at hlen2
          have hjL : j + pat.length ≤ min 0x4000 (r.size - offset) := by omega
          refine ⟨offset + j, by omega, by omega, ?_, ?_, by omega⟩
          · have he1 : offset + j - offset = j := by omega
            rw [he1]
            have he2 : j % 0x4000 = j := Nat.mod_eq_of_lt (by omega)
            omega
          · unfold occursAt
            have hm2 : min pat.length (min 0x4000 (r.size - offset) - j) = pat.length := by
              omega
            rw [hm2] at hslice
            exact hslice
        · have hfuel' : r.size - (offset + min 0x4000 (r.size - offset)) ≤ f := by omega
          rw [ih (offset + min 0x4000 (r.size - offset)) hfuel' a] at hrec
          obtain ⟨i, h1, h2, h3, h4, h5⟩ := hrec
          refine ⟨i, by omega, h2, ?_, h4, h5⟩
          by_cases hc : 0x4000 ≤ r.size - offset
          · have hmin : min 0x4000 (r.size - offset) = 0x4000 := by omega
            rw [hmin] at h1 h3
            have he1 : i - offset = (i - (offset + 0x4000)) + 0x4000 := by omega
            rw [he1]
            omega
          · have hmin : min 0x4000 (r.size - offset) = r.size - offset := by omega
            omega
      · rintro ⟨i, h1, h2, h3, h4, h5⟩
        by_cases hi : i < offset + min 0x4000 (r.size - offset)
        · left
          refine ⟨i - offset, ?_, by omega⟩
          rw [mem_chunkOccurrences, sliceBytes_length]
          refine ⟨by omega, ?_⟩
          rw [sliceBytes_drop, sliceBytes_take]
          have hij : offset + (i - offset) = i := by omega
          rw [hij]
          have hjmod : (i - offset) % 0x4000 = i - offset := Nat.mod_eq_of_lt (by omega)
          have hm2 : min pat.length (min 0x4000 (r.size - offset) - (i - offset))
              = pat.length := by omega
          rw [hm2]
          exact h4
        · right
          have hfuel' : r.size - (offset + min 0x4000 (r.size - offset)) ≤ f := by omega
          rw [ih (offset + min 0x4000 (r.size - offset)) hfuel' a]
          refine ⟨i, by omega, h2, ?_, h4, h5⟩
          by_cases hc : 0x4000 ≤ r.size - offset
          · have hmin : min 0x4000 (r.size - offset) = 0x4000 := by omega
            rw [hmin] at hi ⊢
            have he1 : i - offset = (i - (offset + 0x4000)) + 0x4000 := by omega
            rw [he1] at h3
            omega
          · exfalso
            have hmin : min 0x4000 (r.size - offset) = r.size - offset := by omega
            omega

/-- The per-region loop emits strictly ascending addresses, all at least
`base + offset` (irrespective of how reads resolve). -/
theorem search_region_loop_sorted (ctx : ScanContext) (r : Region) (pat : List Nat) :
    ∀ (fuel offset : Nat),
      List.Sorted (· < ·) (ProcessInspector.search_region_loop ctx r pat fuel offset)
      ∧ ∀ a ∈ ProcessInspector.search_region_loop ctx r pat fuel offset,
          r.base_address + offset ≤ a := by
  intro fuel
  induction fuel with
  | zero =>
    intro offset
    unfold ProcessInspector.search_region_loop
    exact ⟨List.sorted_nil, by intro a ha; cases ha⟩
  | succ f ih =>
    intro offset
    unfold ProcessInspector.search_region_loop
    by_cases hoff : offset < r.size
    case neg =>
      rw [if_neg hoff]
      exact ⟨List.sorted_nil, by intro a ha; cases ha⟩
    case pos =>
      rw [if_pos hoff]
      obtain ⟨ihs, ihb⟩ := ih (offset + min 0x4000 (r.size - offset))
      rcases hrd : read_process_memory ctx (r.base_address + offset)
          (min 0x4000 (r.size - offset)) with e | data
      · simp only [hrd, List.nil_append]
        refine ⟨ihs, ?_⟩
        intro a ha
        have := ihb a ha
        omega
      · simp only [hrd, List.Sorted, List.pairwise_append, List.pairwise_map, List.mem_map,
          List.mem_append]
        have hdl : data.length ≤ min 0x4000 (r.size - offset) :=
          read_process_memory_length ctx (r.base_address + offset) _ data hrd
        have hocc : ∀ j ∈ ProcessInspector.chunkOccurrences data pat, j < data.length := by
          intro j hj
          exact ((mem_chunkOccurrences data pat j).mp hj).1
        have hpw : List.Pairwise (· < ·) (ProcessInspector.chunkOccurrences data pat) :=
          (List.pairwise_lt_range data.length).filter _
        constructor
        · refine ⟨hpw.imp ?_, ihs, ?_⟩
          · intro x y hxy
            omega
          · rintro x ⟨j, hj, rfl⟩ y hy
            have h1 := hocc j hj
            have h2 := ihb y hy
            omega
        · rintro a (⟨j, hj, rfl⟩ | ha)
          · omega
          · have := ihb a ha
            omega

/-- C1 (amended): with mock reads resolving inside each region,
`search_values` succeeds and returns exactly the addresses of the
in-bounds occurrences of the packed target that do not straddle a
`0x4000`-chunk boundary — ascending within each region, regions
concatenated in input order. Occurrences that span a chunk boundary are
missed (see the counterexample), so the claim's "every occurrence" is too
strong. -/
theorem c1_search_values_chunked (ctx : ScanContext) (regions : List Region)
    (target_value : PyNum) (value_type : ValueType) (pat : List Nat)
    (hmock : ctx.mock = true)
    (hres : ∀ r ∈ regions, ∀ a, r.base_address ≤ a → a < r.base_address + r.size →
      findRegion ctx.mock_regions a = some r)
    (hpack : ProcessInspector.pack_value target_value value_type = .ok pat)
    (hpat : pat ≠ []) :
    ∃ found, ProcessInspector.search_values ctx regions target_value value_type = .ok found
      ∧ found = regions.flatMap
          (fun r => ProcessInspector.search_region_loop ctx r pat r.size 0)
      ∧ (∀ a, a ∈ found ↔ ∃ r ∈ regions, ∃ i,
            i + pat.length ≤ r.size
            ∧ i % 0x4000 + pat.length ≤ 0x4000
            ∧ occursAt (ctx.mock_data r.base_address) i pat
            ∧ a = r.base_address + i)
      ∧ ∀ r ∈ regions, List.Sorted (· < ·)
          (ProcessInspector.search_region_loop ctx r pat r.size 0) := by
  refine ⟨regions.flatMap (fun r => ProcessInspector.search_region_loop ctx r pat r.size 0),
    ?_, rfl, ?_, ?_⟩
  · unfold ProcessInspector.search_values
    rw [hpack]
    rfl
  · intro a
    rw [List.mem_flatMap]
    constructor
    · rintro ⟨r, hr, ha⟩
      rw [mem_search_region_loop ctx r pat hmock (hres r hr) hpat r.size 0 (by omega) a] at ha
      obtain ⟨i, _, h2, h3, h4, h5⟩ := ha
      exact ⟨r, hr, i, h2, by simpa using h3, h4, h5⟩
    · rintro ⟨r, hr, i, h2, h3, h4, h5⟩
      refine ⟨r, hr, ?_⟩
      rw [mem_search_region_loop ctx r pat hmock (hres r hr) hpat r.size 0 (by omega) a]
      exact ⟨i, by omega, h2, by simpa using h3, h4, h5⟩
  · intro r _
    exact (search_region_loop_sorted ctx r pat r.size 0).1

/-- A single-region context whose only nonzero bytes `[1, 2, 3, 4]` sit at
offsets `0x3FFE..0x4001`, straddling the first `0x4000`-byte chunk
boundary. -/
def c1data : Nat → Nat := fun o =>
  if o = 0x3FFE then 1 else if o = 0x3FFF then 2
  else if o = 0x4000 then 3 else if o = 0x4001 then 4 else 0

def c1region : Region := { base_address := 0x1000, size := 0x4004 }

def c1ctx : ScanContext :=
  { pid := 1, name := "chunk-miss", pointer_size := 8, mock := true,
    mock_regions := [c1region],
    mock_data := fun b => if b = 0x1000 then c1data else fun _ => 0 }

/-- C1 counterexample: the packed bytes of `uint32 0x04030201` occur at
in-bounds offset `0x3FFE` of the region, yet `search_values` does not
report address `0x1000 + 0x3FFE = 0x4FFE`, because the occurrence spans a
`0x4000`-chunk boundary and `search_values` never stitches chunks. -/
theorem except_toOption_ok {ε α : Type} (x : α) :
    (Except.ok x : Except ε α).toOption = some x := rfl

theorem option_getD_some {α : Type} (x d : α) : (Option.some x).getD d = x := rfl

theorem c1_counterexample :
    ProcessInspector.pack_value (.pyInt 0x04030201) .uint32 = .ok [1, 2, 3, 4]
    ∧ occursAt c1data 0x3FFE [1, 2, 3, 4]
    ∧ 0x3FFE + 4 ≤ c1region.size
    ∧ 0x4FFE ∉ (ProcessInspector.search_values c1ctx [c1region]
        (.pyInt 0x04030201) .uint32).toOption.getD [] := by
  have hpk : ProcessInspector.pack_value (.pyInt 0x04030201) .uint32
      = .ok [1, 2, 3, 4] := by decide
  have heq : ProcessInspector.search_values c1ctx [c1region] (.pyInt 0x04030201) .uint32
      = .ok ([c1region].flatMap
          (fun r => ProcessInspector.search_region_loop c1ctx r [1, 2, 3, 4] r.size 0)) := by
    unfold ProcessInspector.search_values
    rw [hpk]
    rfl
  have hflat : [c1region].flatMap
      (fun r => ProcessInspector.search_region_loop c1ctx r [1, 2, 3, 4] r.size 0)
      = ProcessInspector.search_region_loop c1ctx c1region [1, 2, 3, 4] c1region.size 0 := by
    simp only [List.flatMap_cons, List.flatMap_nil, List.append_nil]
  have hget : (ProcessInspector.search_values c1ctx [c1region]
        (.pyInt 0x04030201) .uint32).toOption.getD []
      = ProcessInspector.search_region_loop c1ctx c1region [1, 2, 3, 4] c1region.size 0 := by
    rw [heq, except_toOption_ok, option_getD_some, hflat]
  refine ⟨hpk, by decide, by decide, ?_⟩
  rw [hget]
  intro habs
  rw [mem_search_region_loop c1ctx c1region [1, 2, 3, 4] rfl
    (resolves_single c1ctx c1region rfl) (by decide) c1region.size 0 (by omega) 0x4FFE] at habs
  obtain ⟨i, _, h2, h3, h4, h5⟩ := habs
  simp only [c1region, List.length_cons, List.length_nil] at h2 h3 h5
  omega

/-- An 8-byte region holding the packed bytes of `uint32 0x04030201` at
offset 2, well inside the first chunk. -/
def c1wregion : Region := { base_address := 0x2000, size := 8 }

def c1wctx : ScanContext :=
  { pid := 2, name := "tiny", pointer_size := 8, mock := true,
    mock_regions := [c1wregion],
    mock_data := fun b =>
      if b = 0x2000 then
        (fun o => if o = 2 then 1 else if o = 3 then 2 else if o = 4 then 3
          else if o = 5 then 4 else 0)
      else fun _ => 0 }

/-- C1 witness: on the tiny context the characterization applies and the
in-chunk occurrence at offset 2 is reported at address `0x2002`. -/
theorem c1_witness :
    0x2002 ∈ (ProcessInspector.search_values c1wctx [c1wregion]
        (.pyInt 0x04030201) .uint32).toOption.getD [] := by
  have hres : ∀ r ∈ [c1wregion], ∀ a, r.base_address ≤ a → a < r.base_address + r.size →
      findRegion c1wctx.mock_regions a = some r := by
    intro r hr
    rw [List.mem_singleton] at hr
    subst hr
    exact resolves_single c1wctx c1wregion rfl
  obtain ⟨found, hfd, hflat, hmem, hsort⟩ := c1_search_values_chunked c1wctx [c1wregion]
    (.pyInt 0x04030201) .uint32 [1, 2, 3, 4] rfl hres (by decide) (by decide)
  rw [hfd]
  show 0x2002 ∈ found
  rw [hmem 0x2002]
  exact ⟨c1wregion, List.mem_singleton.mpr rfl, 2, by decide, by decide, by decide, by decide⟩
